import Mathlib

set_option maxRecDepth 100000

/-!
Verification of the protocol-translation proxy in `claude-model-router`.

The development shallowly embeds the Python source of
`src/claude_model_router/proxy.py` (the message mapper, upstream URL
builder, dispatch/fallback logic of the HTTP handler, and the streaming
state machine) and of `src/claude_model_router/proxy_manager.py` (module
level evaluation), and proves or refutes the specification claims about
them.

JSON values produced by Python's `json.loads` are modelled by the
inductive type `JVal`; Python truthiness, `dict.get`, `or`-defaulting and
`str()` are modelled by `pyTruthy`, `pyGet`/`pyGetD`, `pyOr`, `pyStr`.
Fresh identifiers minted with `uuid.uuid4().hex` are modelled by the
opaque-token constant `uuidHex` (the source only ever uses the token as
a fresh opaque string).
-/

/-- A JSON value as produced by Python's `json.loads`: `None`, `bool`,
`int`, `float` (kept exactly as a decimal mantissa/exponent pair; float
rounding is irrelevant to every claim), `str`, `list`, `dict`
(insertion-ordered association list, duplicate keys collapsed at parse
time as Python does). -/
inductive JVal where
  | null : JVal
  | bool (b : Bool) : JVal
  | num (n : Int) : JVal
  | fnum (mantissa : Int) (exp10 : Int) : JVal
  | str (s : String) : JVal
  | arr (items : List JVal) : JVal
  | obj (fields : List (String × JVal)) : JVal

mutual

/-- Structural (and Python `==`-style, for the values that occur here)
equality test on `JVal`. -/
def JVal.beq : JVal → JVal → Bool
  | .null, .null => true
  | .bool a, .bool b => a == b
  | .num a, .num b => a == b
  | .fnum a e, .fnum b f => a == b && e == f
  | .str a, .str b => a == b
  | .arr xs, .arr ys => JVal.beqList xs ys
  | .obj xs, .obj ys => JVal.beqFields xs ys
  | _, _ => false

def JVal.beqList : List JVal → List JVal → Bool
  | [], [] => true
  | x :: xs, y :: ys => JVal.beq x y && JVal.beqList xs ys
  | _, _ => false

def JVal.beqFields : List (String × JVal) → List (String × JVal) → Bool
  | [], [] => true
  | (k, v) :: xs, (k', v') :: ys => k == k' && JVal.beq v v' && JVal.beqFields xs ys
  | _, _ => false

end

mutual

theorem JVal.beq_iff : ∀ a b : JVal, JVal.beq a b = true ↔ a = b
  | .null, b => by cases b <;> simp [JVal.beq]
  | .bool a, b => by cases b <;> simp [JVal.beq]
  | .num a, b => by cases b <;> simp [JVal.beq]
  | .fnum a e, b => by cases b <;> simp [JVal.beq]
  | .str a, b => by cases b <;> simp [JVal.beq]
  | .arr xs, b => by
      cases b <;> simp [JVal.beq]
      exact JVal.beqList_iff xs _
  | .obj xs, b => by
      cases b <;> simp [JVal.beq]
      exact JVal.beqFields_iff xs _

theorem JVal.beqList_iff : ∀ xs ys : List JVal, JVal.beqList xs ys = true ↔ xs = ys
  | [], ys => by cases ys <;> simp [JVal.beqList]
  | x :: xs, ys => by
      cases ys with
      | nil => simp [JVal.beqList]
      | cons y ys =>
          simp only [JVal.beqList, Bool.and_eq_true, List.cons.injEq]
          exact and_congr (JVal.beq_iff x y) (JVal.beqList_iff xs ys)

theorem JVal.beqFields_iff :
    ∀ xs ys : List (String × JVal), JVal.beqFields xs ys = true ↔ xs = ys
  | [], ys => by cases ys <;> simp [JVal.beqFields]
  | (k, v) :: xs, ys => by
      cases ys with
      | nil => simp [JVal.beqFields]
      | cons p ys =>
          obtain ⟨k', v'⟩ := p
          simp only [JVal.beqFields, Bool.and_eq_true, List.cons.injEq, Prod.mk.injEq,
            beq_iff_eq]
          rw [JVal.beq_iff v v', JVal.beqFields_iff xs ys, and_assoc]

end

instance : DecidableEq JVal := fun a b => decidable_of_iff _ (JVal.beq_iff a b)

/-- Python truthiness (`bool(x)`) of a parsed-JSON value. -/
def pyTruthy : JVal → Bool
  | .null => false
  | .bool b => b
  | .num n => n != 0
  | .fnum m _ => m != 0
  | .str s => s != ""
  | .arr xs => !xs.isEmpty
  | .obj kvs => !kvs.isEmpty

/-- Python `a or b` over parsed-JSON values. -/
def pyOr (a b : JVal) : JVal := if pyTruthy a then a else b

def isObjJ : JVal → Bool
  | .obj _ => true
  | _ => false

def objLookup : List (String × JVal) → String → Option JVal
  | [], _ => none
  | (k', v) :: rest, k => if k' = k then some v else objLookup rest k

/-- Python `d.get(k)` on a dict: `None` when the key is absent (and, as in
Python after `json.loads`, a stored JSON `null` is indistinguishable from
an absent key through `get`). On a non-dict the source would raise; every
call site guards with `isinstance`, and the model returns `None`. -/
def pyGet (v : JVal) (k : String) : JVal :=
  match v with
  | .obj kvs =>
      match objLookup kvs k with
      | some x => x
      | none => JVal.null
  | _ => JVal.null

/-- Python `d.get(k, default)`: the stored value when the key is present
(even when that value is `null`), else the default. -/
def pyGetD (v : JVal) (k : String) (d : JVal) : JVal :=
  match v with
  | .obj kvs =>
      match objLookup kvs k with
      | some x => x
      | none => d
  | _ => d

/-- Python `k in d` key-membership on a dict. -/
def hasKey (v : JVal) (k : String) : Bool :=
  match v with
  | .obj kvs => (objLookup kvs k).isSome
  | _ => false

mutual

/-- Python `str(x)` of a parsed-JSON value (strings unquoted; containers
via `repr`). -/
def pyStr : JVal → String
  | .null => "None"
  | .bool b => if b then "True" else "False"
  | .num n => toString n
  | .fnum m e => toString m ++ "e" ++ toString e
  | .str s => s
  | .arr xs => "[" ++ pyReprList xs ++ "]"
  | .obj kvs => "\x7b" ++ pyReprFields kvs ++ "\x7d"

/-- Python `repr(x)` of a parsed-JSON value. Quote escaping inside the
repr of strings is not modelled; no claim depends on it. -/
def pyRepr : JVal → String
  | .null => "None"
  | .bool b => if b then "True" else "False"
  | .num n => toString n
  | .fnum m e => toString m ++ "e" ++ toString e
  | .str s => "'" ++ s ++ "'"
  | .arr xs => "[" ++ pyReprList xs ++ "]"
  | .obj kvs => "\x7b" ++ pyReprFields kvs ++ "\x7d"

def pyReprList : List JVal → String
  | [] => ""
  | [x] => pyRepr x
  | x :: xs => pyRepr x ++ ", " ++ pyReprList xs

def pyReprFields : List (String × JVal) → String
  | [] => ""
  | [(k, v)] => "'" ++ k ++ "': " ++ pyRepr v
  | (k, v) :: kvs => "'" ++ k ++ "': " ++ pyRepr v ++ ", " ++ pyReprFields kvs

end

/-- Python whitespace as recognised by `str.strip()` / `str.split()` (the
ASCII part; the claims never use non-ASCII whitespace). -/
def pyIsSpace (c : Char) : Bool :=
  c = ' ' || c = '\t' || c = '\n' || c = '\r' || c = '\x0b' || c = '\x0c'

/-- Python `s.strip()`. -/
def strTrim (s : String) : String :=
  ⟨((s.data.dropWhile pyIsSpace).reverse.dropWhile pyIsSpace).reverse⟩

def asciiLowerChar (c : Char) : Char :=
  if 'A' ≤ c ∧ c ≤ 'Z' then Char.ofNat (c.toNat + 32) else c

/-- Python `s.lower()` (ASCII case folding; the claims are ASCII-only). -/
def strLower (s : String) : String := ⟨s.data.map asciiLowerChar⟩

/-- Python `s.startswith(pre)`. -/
def strStarts (s pre : String) : Bool := pre.data.isPrefixOf s.data

/-- Python `s.endswith(suf)`. -/
def strEnds (s suf : String) : Bool := suf.data.isSuffixOf s.data

def containsSubAux (sub : List Char) : List Char → Bool
  | [] => sub.isEmpty
  | c :: rest => sub.isPrefixOf (c :: rest) || containsSubAux sub rest

/-- Python `sub in s` substring containment. -/
def strContains (s sub : String) : Bool :=
  if sub.data.isEmpty then true else containsSubAux sub.data s.data

/-- Stand-in for `uuid.uuid4().hex`: the source only uses the token as an
opaque fresh hex string, so the model fixes one. -/
def uuidHex : String := "0123456789abcdef0123456789abcdef"

/-! ## JSON parsing (`json.loads` / `safe_json_loads`)

`safe_json_loads` in `proxy.py` delegates to Python's `json` module and
maps `JSONDecodeError` to `None`. The grammar below is RFC-8259 JSON as
accepted by `json.loads` (strict mode): the `NaN`/`Infinity` extensions
and surrogate-pair combining in `\u` escapes are not modelled; no claim
touches them. -/

def jsonWs (c : Char) : Bool := c = ' ' || c = '\t' || c = '\n' || c = '\r'

def skipWs (cs : List Char) : List Char := cs.dropWhile jsonWs

def hexVal (c : Char) : Option Nat :=
  if '0' ≤ c ∧ c ≤ '9' then some (c.toNat - 48)
  else if 'a' ≤ c ∧ c ≤ 'f' then some (c.toNat - 87)
  else if 'A' ≤ c ∧ c ≤ 'F' then some (c.toNat - 55)
  else none

def escChar (c : Char) : Option Char :=
  if c = '"' then some '"'
  else if c = '\\' then some '\\'
  else if c = '/' then some '/'
  else if c = 'b' then some (Char.ofNat 8)
  else if c = 'f' then some (Char.ofNat 12)
  else if c = 'n' then some '\n'
  else if c = 'r' then some '\r'
  else if c = 't' then some '\t'
  else none

/-- Parse the body of a JSON string literal (after the opening quote),
returning the decoded characters and the input after the closing quote. -/
def parseStringBody : List Char → Option (List Char × List Char)
  | [] => none
  | c :: rest =>
    if c = '"' then some ([], rest)
    else if c = '\\' then
      match rest with
      | [] => none
      | e :: rest2 =>
        if e = 'u' then
          match rest2 with
          | a :: b :: c2 :: d :: rest3 =>
            match hexVal a, hexVal b, hexVal c2, hexVal d with
            | some ha, some hb, some hc, some hd =>
              match parseStringBody rest3 with
              | some (s, r) =>
                  some (Char.ofNat (((ha * 16 + hb) * 16 + hc) * 16 + hd) :: s, r)
              | none => none
            | _, _, _, _ => none
          | _ => none
        else
          match escChar e with
          | some ch =>
            match parseStringBody rest2 with
            | some (s, r) => some (ch :: s, r)
            | none => none
          | none => none
    else if c.toNat < 32 then none
    else
      match parseStringBody rest with
      | some (s, r) => some (c :: s, r)
      | none => none

def digitsVal (ds : List Char) : Nat := ds.foldl (fun a c => a * 10 + (c.toNat - 48)) 0

/-- Parse a JSON number. Integer syntax yields `JVal.num`; fraction or
exponent syntax yields `JVal.fnum` (Python would build a `float`). -/
def parseNumber (cs : List Char) : Option (JVal × List Char) :=
  let neg := cs.head? = some '-'
  let cs1 := if neg then cs.drop 1 else cs
  let ip := cs1.takeWhile (fun c => c.isDigit)
  let cs2 := cs1.dropWhile (fun c => c.isDigit)
  if ip.isEmpty then none
  else if ip.head? = some '0' ∧ 2 ≤ ip.length then none
  else
    let fracParse : Option (List Char × List Char) :=
      match cs2 with
      | '.' :: cs3 =>
        let fd := cs3.takeWhile (fun c => c.isDigit)
        if fd.isEmpty then none else some (fd, cs3.dropWhile (fun c => c.isDigit))
      | _ => some ([], cs2)
    match fracParse with
    | none => none
    | some (fd, cs4) =>
      let hasExp := cs4.head? = some 'e' ∨ cs4.head? = some 'E'
      if hasExp then
        let cs5 := cs4.drop 1
        let eneg := cs5.head? = some '-'
        let cs6 := if cs5.head? = some '-' ∨ cs5.head? = some '+' then cs5.drop 1 else cs5
        let ed := cs6.takeWhile (fun c => c.isDigit)
        if ed.isEmpty then none
        else
          let mant : Int := (if neg then -1 else 1) * (digitsVal (ip ++ fd) : Int)
          let ev : Int := (if eneg then -1 else 1) * (digitsVal ed : Int)
          some (JVal.fnum mant (ev - fd.length), cs6.dropWhile (fun c => c.isDigit))
      else if fd.isEmpty then
        some (JVal.num ((if neg then -1 else 1) * (digitsVal ip : Int)), cs4)
      else
        some (JVal.fnum ((if neg then -1 else 1) * (digitsVal (ip ++ fd) : Int))
          (-(fd.length : Int)), cs4)

/-- Insert a key into a parsed object the way Python's dict does for
duplicate keys: keep the first position, overwrite the value. -/
def objInsert : List (String × JVal) → String → JVal → List (String × JVal)
  | [], k, v => [(k, v)]
  | (k', v') :: rest, k, v =>
      if k' = k then (k, v) :: rest else (k', v') :: objInsert rest k v

mutual

def parseVal : Nat → List Char → Option (JVal × List Char)
  | 0, _ => none
  | fuel + 1, cs0 =>
    let cs := skipWs cs0
    match cs with
    | [] => none
    | c :: rest =>
      if c = '"' then
        match parseStringBody rest with
        | some (s, r) => some (JVal.str ⟨s⟩, r)
        | none => none
      else if c = '\x7b' then
        let r1 := skipWs rest
        match r1 with
        | d :: r2 =>
            if d = '\x7d' then some (JVal.obj [], r2)
            else
              match parseMembers fuel [] r1 with
              | some (kvs, r) => some (JVal.obj kvs, r)
              | none => none
        | [] => none
      else if c = '[' then
        let r1 := skipWs rest
        match r1 with
        | d :: r2 =>
            if d = ']' then some (JVal.arr [], r2)
            else
              match parseItems fuel [] r1 with
              | some (xs, r) => some (JVal.arr xs, r)
              | none => none
        | [] => none
      else if c = 't' then
        if "rue".data.isPrefixOf rest then some (JVal.bool true, rest.drop 3) else none
      else if c = 'f' then
        if "alse".data.isPrefixOf rest then some (JVal.bool false, rest.drop 4) else none
      else if c = 'n' then
        if "ull".data.isPrefixOf rest then some (JVal.null, rest.drop 3) else none
      else if c = '-' ∨ c.isDigit then parseNumber cs
      else none

def parseItems : Nat → List JVal → List Char → Option (List JVal × List Char)
  | 0, _, _ => none
  | fuel + 1, acc, cs =>
    match parseVal fuel cs with
    | none => none
    | some (v, r) =>
      let r1 := skipWs r
      match r1 with
      | ',' :: r2 => parseItems fuel (acc ++ [v]) r2
      | ']' :: r2 => some (acc ++ [v], r2)
      | _ => none

def parseMembers : Nat → List (String × JVal) → List Char →
    Option (List (String × JVal) × List Char)
  | 0, _, _ => none
  | fuel + 1, acc, cs =>
    let cs1 := skipWs cs
    match cs1 with
    | c :: r =>
      if c = '"' then
        match parseStringBody r with
        | some (kcs, r1) =>
          let r2 := skipWs r1
          match r2 with
          | ':' :: r3 =>
            match parseVal fuel r3 with
            | some (v, r4) =>
              let acc' := objInsert acc ⟨kcs⟩ v
              let r5 := skipWs r4
              match r5 with
              | ',' :: r6 => parseMembers fuel acc' r6
              | d :: r6 => if d = '\x7d' then some (acc', r6) else none
              | [] => none
            | none => none
          | _ => none
        | none => none
      else none
    | [] => none

end

/-- `json.loads` on a text body: parse one JSON document and reject
trailing data. -/
def json_loads (s : String) : Option JVal :=
  match parseVal (2 * s.length + 8) s.data with
  | some (v, r) => if skipWs r = [] then some v else none
  | none => none

/-- `safe_json_loads` (proxy.py:86-91): `json.loads` with decode errors
mapped to `None` — which is exactly what `json_loads` returns. -/
def safe_json_loads (s : String) : Option JVal := json_loads s

/-! ## URL builder (`build_upstream_url`, proxy.py:36-48) -/

def rstripChar (c : Char) (l : List Char) : List Char :=
  (l.reverse.dropWhile (· = c)).reverse

def lstripChar (c : Char) (l : List Char) : List Char := l.dropWhile (· = c)

/-- `build_upstream_url` at character level: strip trailing slashes from
the base and leading slashes from the endpoint, default an empty endpoint,
then join so that a base already ending in `/v1` absorbs the endpoint's
`v1/` prefix. -/
def buildUpstreamUrlChars (base endpoint : List Char) : List Char :=
  let b := rstripChar '/' base
  let e0 := lstripChar '/' endpoint
  let e := if e0.isEmpty then "v1/chat/completions".data else e0
  if "/v1".data.isSuffixOf b then
    (if "v1/".data.isPrefixOf e then b ++ '/' :: e.drop 3 else b ++ '/' :: e)
  else if "v1/".data.isPrefixOf e then b ++ '/' :: e
  else b ++ "/v1/".data ++ e

def build_upstream_url (base endpoint : String) : String :=
  ⟨buildUpstreamUrlChars base.data endpoint.data⟩

/-- Split a URL's characters at every `/`. -/
def segs : List Char → List (List Char)
  | [] => [[]]
  | c :: cs =>
    if c = '/' then [] :: segs cs
    else
      match segs cs with
      | s :: rest => (c :: s) :: rest
      | [] => [[c]]

/-- Number of path segments of a URL that are exactly `v1`. -/
def v1SegCount (u : String) : Nat := (segs u.data).count "v1".data

/-! ## Routing policy (`should_use_responses`, proxy.py:51-65) -/

/-- `should_use_responses`. `forceEnv` is the value of the
`MODEL_ROUTER_FORCE_RESPONSES` environment variable (`""` when unset,
matching Python's `os.environ.get(..., "")`); the model is the request's
`model` field (`null` for absent, any JSON value otherwise, converted by
`str()` as in the source). -/
def should_use_responses (forceEnv : String) (model : JVal) : Bool :=
  if !pyTruthy model then false
  else
    let m0 := strTrim (pyStr model)
    if m0 = "" then false
    else
      let m := strLower m0
      if strStarts m "gpt-5" || strStarts m "o" then true
      else if strContains m "codex" then true
      else if strTrim forceEnv ∈ (["1", "true", "yes", "on"] : List String) then true
      else false

/-- The routing rule in the spec's words (spec.md §4.1, "true iff model
name (case-insensitive, trimmed) starts with gpt-5, starts with o,
contains codex, or a process-wide override flag is set to a truthy token
(1/true/yes/on)"), stated for a model string, for comparison with
`should_use_responses`. -/
def shouldUseResponsesSpec (forceEnv : String) (model : String) : Bool :=
  let m := strLower (strTrim model)
  strStarts m "gpt-5" || strStarts m "o" || strContains m "codex" ||
    decide (strTrim forceEnv ∈ (["1", "true", "yes", "on"] : List String))

/-! ## Fallback detection (`is_not_chat_model_error`, proxy.py:68-83) -/

def is_not_chat_model_error (payload : Option JVal) : Bool :=
  match payload with
  | some (JVal.obj kvs) =>
    let p := JVal.obj kvs
    let err := pyGet p "error"
    let message :=
      match err with
      | JVal.obj _ => pyStr (pyOr (pyGet err "message") (JVal.str ""))
      | JVal.null => pyStr (pyOr (pyGet p "message") (JVal.str ""))
      | _ => pyStr err
    let msg := strLower message
    (strContains msg "not a chat model" && strContains msg "chat/completions") ||
      strContains msg "v1/chat/completions"
  | _ => false

/-! ## Tool-choice mapping (`map_tool_choice`, proxy.py:155-166) -/

def map_tool_choice (toolChoice : JVal) : JVal :=
  match toolChoice with
  | JVal.str s => JVal.str s
  | JVal.obj _ =>
    let t := pyGet toolChoice "type"
    if t = JVal.str "auto" ∨ t = JVal.str "none" then t
    else if t = JVal.str "tool" ∧ pyTruthy (pyGet toolChoice "name") then
      JVal.obj [("type", JVal.str "function"),
        ("function", JVal.obj [("name", pyGet toolChoice "name")])]
    else JVal.str "auto"
  | _ => JVal.str "auto"

/-! ## Chat Completions response translation (proxy.py:348-401) -/

/-- The text-flattening of a list-valued `content` in
`openai_message_to_blocks` (proxy.py:352-355): concatenate the `text`
fields of `text`-typed parts. Non-dict parts and non-string `text` values
would raise in the source; they contribute nothing here. -/
def joinTextParts (parts : List JVal) : String :=
  parts.foldl
    (fun acc p =>
      match p with
      | JVal.obj _ =>
          if pyGet p "type" = JVal.str "text" then
            acc ++ (match pyGetD p "text" (JVal.str "") with
              | JVal.str s => s
              | _ => "")
          else acc
      | _ => acc) ""

/-- JSON-decoding of a tool call's `arguments` (proxy.py:362-366 and
427-431): falsy → `{}`; parse failure → `{"_raw": raw}`. A non-string
truthy value would raise `TypeError` in the source; kept raw here. -/
def decodeArgs (argsRaw : JVal) : JVal :=
  if !pyTruthy argsRaw then JVal.obj []
  else
    match argsRaw with
    | JVal.str s =>
      match json_loads s with
      | some v => v
      | none => JVal.obj [("_raw", argsRaw)]
    | _ => JVal.obj [("_raw", argsRaw)]

/-- One entry of the `tool_calls` loop in `openai_message_to_blocks`
(proxy.py:359-368). -/
def toolCallToBlock (call : JVal) : JVal :=
  let fn := pyOr (pyGet call "function") (JVal.obj [])
  let name := pyOr (pyGet fn "name") (JVal.str "tool")
  let argsRaw := pyOr (pyGet fn "arguments") (JVal.str "")
  let toolId := pyOr (pyGet call "id") (JVal.str ("tool_" ++ uuidHex))
  JVal.obj [("type", JVal.str "tool_use"), ("id", toolId), ("name", name),
    ("input", decodeArgs argsRaw)]

/-- `message.get("tool_calls") or []` as a list (proxy.py:358). A truthy
non-list would raise on iteration; modelled as empty. -/
def toolCallsList (message : JVal) : List JVal :=
  match pyOr (pyGet message "tool_calls") (JVal.arr []) with
  | JVal.arr xs => xs
  | _ => []

/-- The normalized `text_content` of `openai_message_to_blocks`
(proxy.py:351-355): a list-valued `content` is flattened, anything else
kept. -/
def chatTextContent (message : JVal) : JVal :=
  match pyGet message "content" with
  | JVal.arr parts => JVal.str (joinTextParts parts)
  | v => v

/-- `openai_message_to_blocks` (proxy.py:348-369): the content blocks and
the `bool(tool_calls)` flag. -/
def openai_message_to_blocks (message : JVal) : List JVal × Bool :=
  let textContent := chatTextContent message
  let blocks :=
    if pyTruthy textContent then
      [JVal.obj [("type", JVal.str "text"), ("text", textContent)]]
    else []
  let blocks := blocks ++ (toolCallsList message).map toolCallToBlock
  (blocks, pyTruthy (pyOr (pyGet message "tool_calls") (JVal.arr [])))

/-- `map_finish_reason` (proxy.py:372-378). -/
def map_finish_reason (finishReason : JVal) (hasToolCalls : Bool) : String :=
  if finishReason = JVal.str "tool_calls" ∨ hasToolCalls then "tool_use"
  else if finishReason = JVal.str "length" then "max_tokens"
  else "end_turn"

/-- `f"msg_{payload.get('id') or uuid.uuid4().hex}"` (proxy.py:390, 445). -/
def msgIdOf (payload : JVal) : String :=
  "msg_" ++ pyStr (pyOr (pyGet payload "id") (JVal.str uuidHex))

/-- `choices = payload.get("choices") or []; choice = choices[0] if
choices else {}` (proxy.py:383-384). A truthy non-list `choices` or a
non-dict first element would raise at the next `.get` in the source. -/
def chatChoiceOf (payload : JVal) : JVal :=
  match pyOr (pyGet payload "choices") (JVal.arr []) with
  | JVal.arr (c :: _) => c
  | _ => JVal.obj []

/-- `message = choice.get("message") or {}` (proxy.py:385). -/
def chatMessageOf (payload : JVal) : JVal :=
  pyOr (pyGet (chatChoiceOf payload) "message") (JVal.obj [])

/-- `choice.get("finish_reason")` (proxy.py:387). -/
def chatFinishReasonOf (payload : JVal) : JVal :=
  pyGet (chatChoiceOf payload) "finish_reason"

/-- `openai_to_anthropic` (proxy.py:381-401). -/
def openai_to_anthropic (payload : JVal) : JVal :=
  let message := chatMessageOf payload
  let bm := openai_message_to_blocks message
  let finishReason := chatFinishReasonOf payload
  let usage := pyOr (pyGet payload "usage") (JVal.obj [])
  JVal.obj [
    ("id", JVal.str (msgIdOf payload)),
    ("type", JVal.str "message"),
    ("role", JVal.str "assistant"),
    ("model", pyOr (pyGet payload "model") (pyOr (pyGet message "model") (JVal.str ""))),
    ("content", JVal.arr bm.1),
    ("stop_reason", JVal.str (map_finish_reason finishReason bm.2)),
    ("stop_sequence", JVal.null),
    ("usage", JVal.obj [
      ("input_tokens", pyGetD usage "prompt_tokens" (JVal.num 0)),
      ("output_tokens", pyGetD usage "completion_tokens" (JVal.num 0))])]

/-! ## Responses API response translation (proxy.py:404-453) -/

/-- One item of the `output[]` walk in `openai_responses_to_anthropic`
(proxy.py:409-432), folded over `(blocks, has_tool_calls)`. -/
def respOutputItemStep (acc : List JVal × Bool) (item : JVal) : List JVal × Bool :=
  match item with
  | JVal.obj _ =>
    let itemType := pyGet item "type"
    if itemType = JVal.str "message" ∧ pyGet item "role" = JVal.str "assistant" then
      match pyOr (pyGet item "content") (JVal.arr []) with
      | JVal.str s =>
          (acc.1 ++ [JVal.obj [("type", JVal.str "text"), ("text", JVal.str s)]], acc.2)
      | JVal.arr parts =>
        (acc.1 ++ parts.foldl (fun bs part =>
          match part with
          | JVal.obj _ =>
            if pyGet part "type" = JVal.str "output_text" ∧ pyTruthy (pyGet part "text") then
              bs ++ [JVal.obj [("type", JVal.str "text"),
                ("text", pyGetD part "text" (JVal.str ""))]]
            else bs
          | _ => bs) [], acc.2)
      | _ => acc
    else if itemType = JVal.str "function_call" then
      let callId := pyOr (pyGet item "call_id")
        (pyOr (pyGet item "id") (JVal.str ("tool_" ++ uuidHex)))
      let name := pyOr (pyGet item "name") (JVal.str "tool")
      let argsRaw := pyOr (pyGet item "arguments") (JVal.str "")
      (acc.1 ++ [JVal.obj [("type", JVal.str "tool_use"), ("id", callId),
        ("name", name), ("input", decodeArgs argsRaw)]], true)
    else acc
  | _ => acc

/-- The `output[]` walk of `openai_responses_to_anthropic`
(proxy.py:406-432): `(blocks, has_tool_calls)` accumulated over
`payload.get("output") or []`. -/
def respBlocksOf (payload : JVal) : List JVal × Bool :=
  (match pyOr (pyGet payload "output") (JVal.arr []) with
   | JVal.arr xs => xs
   | _ => []).foldl respOutputItemStep ([], false)

/-- `openai_responses_to_anthropic` (proxy.py:404-453). `requestedModel`
is `None` (`null`) or the model value handed in by the caller. -/
def openai_responses_to_anthropic (payload : JVal) (requestedModel : JVal) : JVal :=
  let bm := respBlocksOf payload
  let usage := pyOr (pyGet payload "usage") (JVal.obj [])
  let stopReason0 := if bm.2 then "tool_use" else "end_turn"
  let incomplete := pyOr (pyGet payload "incomplete_details") (JVal.obj [])
  let stopReason :=
    match incomplete with
    | JVal.obj _ =>
      if pyGet incomplete "reason" = JVal.str "max_tokens" ∨
          pyGet incomplete "reason" = JVal.str "max_output_tokens" then "max_tokens"
      else stopReason0
    | _ => stopReason0
  JVal.obj [
    ("id", JVal.str (msgIdOf payload)),
    ("type", JVal.str "message"),
    ("role", JVal.str "assistant"),
    ("model", pyOr (pyGet payload "model") (pyOr requestedModel (JVal.str ""))),
    ("content", JVal.arr (if bm.1.isEmpty then
        [JVal.obj [("type", JVal.str "text"), ("text", JVal.str "")]] else bm.1)),
    ("stop_reason", JVal.str stopReason),
    ("stop_sequence", JVal.null),
    ("usage", JVal.obj [
      ("input_tokens", pyGetD usage "input_tokens" (JVal.num 0)),
      ("output_tokens", pyGetD usage "output_tokens" (JVal.num 0))])]

/-! ## Credentials and dispatch (`extract_api_key`, `do_POST`,
proxy.py:456-464 and 687-766) -/

/-- Process environment slice the handler reads. `""` models an unset
variable: both are falsy at every use site. -/
structure EnvState where
  forceResponses : String := ""
  openaiApiKey : String := ""
  anthropicAuthToken : String := ""

def strOptTruthy : Option String → Bool
  | none => false
  | some s => s != ""

/-- Python `a or b` for optional header strings. -/
def optOrStr (a b : Option String) : Option String :=
  if strOptTruthy a then a else b

/-- Case-insensitive header lookup (`http.server` exposes headers through
`email.message.Message`, whose `get` is case-insensitive); `none` when
absent. -/
def headerGet (headers : List (String × String)) (k : String) : Option String :=
  (headers.find? (fun kv => strLower kv.1 = strLower k)).map (·.2)

/-- Python `s.split(None, 1)[1]`: the remainder after the whitespace run
that follows the first token (empty when there is no second token — there
the source would raise `IndexError`). -/
def splitRestAfterFirstToken (s : String) : String :=
  ⟨(s.data.dropWhile (fun c => !pyIsSpace c)).dropWhile pyIsSpace⟩

/-- `extract_api_key` (proxy.py:456-464). -/
def extract_api_key (headers : List (String × String)) (env : EnvState) : Option String :=
  let apiKey := optOrStr (headerGet headers "x-api-key") (headerGet headers "X-Api-Key")
  if strOptTruthy apiKey then some (strTrim (apiKey.getD ""))
  else
    let auth := optOrStr (headerGet headers "Authorization") (headerGet headers "authorization")
    if strOptTruthy auth && strStarts (strLower (auth.getD "")) "bearer " then
      some (strTrim (splitRestAfterFirstToken (auth.getD "")))
    else if env.openaiApiKey != "" then some env.openaiApiKey
    else if env.anthropicAuthToken != "" then some env.anthropicAuthToken
    else none

/-- Verdict of one upstream HTTP POST: a reply (urllib only returns for
2xx/3xx), an `HTTPError` with a body, or a `URLError`. -/
inductive UpResult where
  | ok (status : Nat) (body : JVal)
  | httpError (code : Nat) (body : String)
  | urlError (msg : String)

/-- A reply written to the client: JSON (`_send_json`), plain text
(`_send_text`), or a streaming SSE response. -/
inductive RespBody where
  | json (v : JVal)
  | text (s : String)
  | eventStream
deriving DecidableEq

structure PostOutcome where
  status : Nat
  body : RespBody
  attempts : List Bool
deriving DecidableEq

def invalidJsonBody : JVal :=
  JVal.obj [("error", JVal.obj [("type", JVal.str "invalid_request"),
    ("message", JVal.str "Invalid JSON")])]

def missingKeyBody : JVal :=
  JVal.obj [("error", JVal.obj [("type", JVal.str "auth_error"),
    ("message", JVal.str "Missing API key")])]

/-- The `urllib.parse.urlsplit(self.path).path` step (proxy.py:688):
strip query and fragment. -/
def urlPathOnly (p : String) : String :=
  ⟨p.data.takeWhile (fun c => c ≠ '?' ∧ c ≠ '#')⟩

/-- `ProxyHandler.do_POST` (proxy.py:687-766) as a function of the request
(path, decoded body text, headers), the process environment, and an
oracle giving the upstream verdict per endpoint (`true` = `v1/responses`,
`false` = `v1/chat/completions`). A streaming success reply is
represented by `RespBody.eventStream`; the streaming translation itself
is modelled separately by the stream writer below. `attempts` records the
upstream endpoints actually called, in order. A `URLError` raised during
the fallback retry escapes `do_POST` uncaught (it is raised inside the
`except HTTPError` handler); that is represented as a 500 text reply. -/
def doPost (env : EnvState) (headers : List (String × String)) (path : String)
    (rawText : String) (oracle : Bool → UpResult) : PostOutcome :=
  let p := urlPathOnly path
  if !(strEnds p "/messages" || strEnds p "/v1/messages") then
    ⟨404, RespBody.text "Not Found", []⟩
  else
    let effective := if rawText = "" then "\x7b\x7d" else rawText
    match safe_json_loads effective with
    | some (JVal.obj kvs) =>
      let payload := JVal.obj kvs
      let stream := pyTruthy (pyGet payload "stream")
      let requestedModel := pyGet payload "model"
      let useResponses := should_use_responses env.forceResponses requestedModel
      let apiKey := extract_api_key headers env
      if !strOptTruthy apiKey then ⟨401, RespBody.json missingKeyBody, []⟩
      else
        let respReqModel := if pyTruthy requestedModel then requestedModel else JVal.null
        let translated := fun (useR : Bool) (body : JVal) =>
          if useR then openai_responses_to_anthropic body respReqModel
          else openai_to_anthropic body
        match oracle useResponses with
        | UpResult.ok st body =>
            if stream then ⟨200, RespBody.eventStream, [useResponses]⟩
            else ⟨st, RespBody.json (translated useResponses body), [useResponses]⟩
        | UpResult.httpError code body =>
          let errorPayload := safe_json_loads body
          if !useResponses && is_not_chat_model_error errorPayload then
            match oracle true with
            | UpResult.ok st2 b2 =>
                if stream then ⟨200, RespBody.eventStream, [useResponses, true]⟩
                else ⟨st2, RespBody.json (translated true b2), [useResponses, true]⟩
            | UpResult.httpError c2 b2 =>
              (match safe_json_loads b2 with
               | none => ⟨c2, RespBody.text (if b2 = "" then "Upstream error" else b2),
                   [useResponses, true]⟩
               | some rp => ⟨c2, RespBody.json rp, [useResponses, true]⟩)
            | UpResult.urlError m => ⟨500, RespBody.text m, [useResponses, true]⟩
          else
            match errorPayload with
            | none => ⟨code, RespBody.text (if body = "" then "Upstream error" else body),
                [useResponses]⟩
            | some v => ⟨code, RespBody.json v, [useResponses]⟩
        | UpResult.urlError msg =>
            ⟨502, RespBody.json (JVal.obj [("error", JVal.obj [
              ("type", JVal.str "upstream_error"), ("message", JVal.str msg)])]),
              [useResponses]⟩
    | _ => ⟨400, RespBody.json invalidJsonBody, []⟩

/-! ## Streaming state machine (`AnthropicStreamWriter`, proxy.py:467-643)

The writer's mutable fields become `WState`; each method returns the new
state together with the SSE frames written, each frame being the pair of
the `event:` name and the `data:` JSON payload. -/

/-- One entry of `self.tool_states` (a per-upstream-tool-index dict in the
source; the optional fields are keys that may not have been assigned
yet). -/
structure ToolState where
  tsId : Option JVal := none
  tsName : Option JVal := none
  contentIndex : Option Nat := none
  started : Bool := false
  pendingArgs : List JVal := []

/-- The writer's state. `usage` is `null` until a dict is stored. -/
structure WState where
  started : Bool := false
  messageId : String := ""
  model : JVal := JVal.null
  nextIndex : Nat := 0
  textIndex : Option Nat := none
  startedBlocks : List Nat := []
  toolStates : List (JVal × ToolState) := []
  finishReason : JVal := JVal.null
  usage : JVal := JVal.null

def initWState : WState := {}

/-- `self.tool_states[key]` lookup (insertion-ordered dict). -/
def tsGet : List (JVal × ToolState) → JVal → Option ToolState
  | [], _ => none
  | (k', v) :: rest, k => if k' = k then some v else tsGet rest k

/-- Dict update: overwrite in place, or append preserving insertion
order (as `dict.setdefault` / item assignment do). -/
def tsSet : List (JVal × ToolState) → JVal → ToolState → List (JVal × ToolState)
  | [], k, v => [(k, v)]
  | (k', v') :: rest, k, v => if k' = k then (k, v) :: rest else (k', v') :: tsSet rest k v

abbrev SEvent := String × JVal

def truthyOpt : Option JVal → Bool
  | none => false
  | some v => pyTruthy v

/-- `state.get(k) or fallback` where `none` models a never-assigned key. -/
def optJOr (a : Option JVal) (b : JVal) : JVal :=
  match a with
  | some v => pyOr v b
  | none => b

def contentBlockDeltaEvent (i : Nat) (delta : JVal) : SEvent :=
  ("content_block_delta", JVal.obj [("type", JVal.str "content_block_delta"),
    ("index", JVal.num i), ("delta", delta)])

def inputJsonDelta (fragment : JVal) : JVal :=
  JVal.obj [("type", JVal.str "input_json_delta"), ("partial_json", fragment)]

/-- Flushing `pending_args` as `input_json_delta` frames at a block
index (proxy.py:580-589, 594-602, 614-622). -/
def flushEvents (i : Nat) (frags : List JVal) : List SEvent :=
  frags.map (fun f => contentBlockDeltaEvent i (inputJsonDelta f))

def toolStartEvent (i : Nat) (toolId name : JVal) : SEvent :=
  ("content_block_start", JVal.obj [("type", JVal.str "content_block_start"),
    ("index", JVal.num i),
    ("content_block", JVal.obj [("type", JVal.str "tool_use"), ("id", toolId),
      ("name", name), ("input", JVal.obj [])])])

/-- `_start_message` (proxy.py:491-512); `req` is the writer's
`requested_model`. -/
def startMessage (req : JVal) (s : WState) (mid mdl : JVal) : WState × List SEvent :=
  if s.started then (s, [])
  else
    let idStr := "msg_" ++ pyStr (pyOr mid (JVal.str uuidHex))
    let m := pyOr mdl (pyOr req (JVal.str ""))
    ({ s with started := true, messageId := idStr, model := m },
      [("message_start", JVal.obj [("type", JVal.str "message_start"),
        ("message", JVal.obj [("id", JVal.str idStr), ("type", JVal.str "message"),
          ("role", JVal.str "assistant"), ("model", m), ("content", JVal.arr []),
          ("stop_reason", JVal.null), ("stop_sequence", JVal.null),
          ("usage", JVal.obj [("input_tokens", JVal.num 0),
            ("output_tokens", JVal.num 0)])])])])

/-- `_start_text_block` (proxy.py:514-529). -/
def startTextBlock (s : WState) : Nat × WState × List SEvent :=
  match s.textIndex with
  | some i => (i, s, [])
  | none =>
    let i := s.nextIndex
    (i, { s with
            nextIndex := i + 1,
            textIndex := some i,
            startedBlocks := s.startedBlocks ++ [i] },
      [("content_block_start", JVal.obj [("type", JVal.str "content_block_start"),
        ("index", JVal.num i),
        ("content_block", JVal.obj [("type", JVal.str "text"),
          ("text", JVal.str "")])])])

/-- `_start_tool_block` (proxy.py:531-553). -/
def startToolBlock (key : JVal) (toolId name : JVal) (s : WState) :
    Nat × WState × List SEvent :=
  match tsGet s.toolStates key with
  | some st =>
    match st.contentIndex with
    | some ci => (ci, s, [])
    | none =>
      let i := s.nextIndex
      (i, { s with
              nextIndex := i + 1,
              toolStates := tsSet s.toolStates key
                { st with contentIndex := some i, started := true },
              startedBlocks := s.startedBlocks ++ [i] },
        [toolStartEvent i toolId name])
  | none =>
    let i := s.nextIndex
    (i, { s with
            nextIndex := i + 1,
            toolStates := tsSet s.toolStates key ⟨none, none, some i, true, []⟩,
            startedBlocks := s.startedBlocks ++ [i] },
      [toolStartEvent i toolId name])

/-- `handle_text_delta` (proxy.py:555-566). -/
def handleTextDelta (t : JVal) (s : WState) : WState × List SEvent :=
  if t = JVal.null then (s, [])
  else
    match startTextBlock s with
    | (i, s1, evs) =>
      (s1, evs ++ [contentBlockDeltaEvent i
        (JVal.obj [("type", JVal.str "text_delta"), ("text", t)])])

/-- Start a tool block, then flush the buffered argument fragments as
`input_json_delta` frames and clear `pending_args` — the tail shared by
`handle_tool_delta` (proxy.py:591-603) and `finalize_pending_tools`
(proxy.py:611-623). -/
def startAndFlush (key toolId name : JVal) (pending : List JVal) (s : WState) :
    WState × List SEvent :=
  match startToolBlock key toolId name s with
  | (i, s2, evs1) =>
    let stF := (tsGet s2.toolStates key).getD ⟨none, none, none, false, []⟩
    ({ s2 with toolStates := tsSet s2.toolStates key { stF with pendingArgs := [] } },
      evs1 ++ flushEvents i pending)

/-- The per-delta `ToolState` update of `handle_tool_delta`
(proxy.py:570-578): record an incoming id, name, and argument
fragment. -/
def toolDeltaState (tc : JVal) (st0 : ToolState) : ToolState :=
  let st1 := if pyTruthy (pyGet tc "id") then { st0 with tsId := some (pyGet tc "id") } else st0
  let fn := pyOr (pyGet tc "function") (JVal.obj [])
  let st2 := if pyTruthy (pyGet fn "name") then { st1 with tsName := some (pyGet fn "name") }
    else st1
  if pyTruthy (pyGet fn "arguments") then
    { st2 with pendingArgs := st2.pendingArgs ++ [pyGet fn "arguments"] }
  else st2

/-- `handle_tool_delta` (proxy.py:568-603). In the `started` branch the
source indexes `state["content_index"]`, which is always set together
with `started`; the model's `getD 0` is never the default on reachable
states. -/
def handleToolDelta (tc : JVal) (s : WState) : WState × List SEvent :=
  let key := pyGetD tc "index" (JVal.num 0)
  let st3 := toolDeltaState tc ((tsGet s.toolStates key).getD ⟨none, none, none, false, []⟩)
  let s1 := { s with toolStates := tsSet s.toolStates key st3 }
  if st3.started then
    ({ s1 with toolStates := tsSet s1.toolStates key { st3 with pendingArgs := [] } },
      flushEvents (st3.contentIndex.getD 0) st3.pendingArgs)
  else if truthyOpt st3.tsName then
    startAndFlush key (optJOr st3.tsId (JVal.str ("tool_" ++ uuidHex)))
      (st3.tsName.getD JVal.null) st3.pendingArgs s1
  else (s1, [])

/-- One iteration of the loop in `finalize_pending_tools`
(proxy.py:605-623). -/
def finalizeOne (s : WState) (key : JVal) : WState × List SEvent :=
  match tsGet s.toolStates key with
  | none => (s, [])
  | some st =>
    if st.started then (s, [])
    else if !truthyOpt st.tsName && st.pendingArgs.isEmpty then (s, [])
    else
      startAndFlush key (optJOr st.tsId (JVal.str ("tool_" ++ uuidHex)))
        (optJOr st.tsName (JVal.str "tool")) st.pendingArgs s

def finalizeAll (s : WState) : List JVal → WState × List SEvent
  | [] => (s, [])
  | k :: ks =>
    match finalizeOne s k with
    | (s1, evs1) =>
      match finalizeAll s1 ks with
      | (s2, evs2) => (s2, evs1 ++ evs2)

/-- `finalize_pending_tools` (proxy.py:605-623): iterate over the
snapshot of `tool_states` keys in insertion order. -/
def finalizePendingTools (s : WState) : WState × List SEvent :=
  finalizeAll s (s.toolStates.map Prod.fst)

def stopEvent (i : Nat) : SEvent :=
  ("content_block_stop", JVal.obj [("type", JVal.str "content_block_stop"),
    ("index", JVal.num i)])

/-- `finish` (proxy.py:625-643). -/
def finishWriter (s : WState) : List SEvent :=
  match finalizePendingTools s with
  | (s1, evs1) =>
    let stopReason := map_finish_reason s1.finishReason (!s1.toolStates.isEmpty)
    let stops := s1.startedBlocks.map stopEvent
    let delta := JVal.obj [("stop_reason", JVal.str stopReason), ("stop_sequence", JVal.null)]
    let md := if pyTruthy s1.usage then
        JVal.obj [("type", JVal.str "message_delta"), ("delta", delta),
          ("usage", JVal.obj [("input_tokens", pyGetD s1.usage "prompt_tokens" (JVal.num 0)),
            ("output_tokens", pyGetD s1.usage "completion_tokens" (JVal.num 0))])]
      else JVal.obj [("type", JVal.str "message_delta"), ("delta", delta)]
    evs1 ++ stops ++ [("message_delta", md),
      ("message_stop", JVal.obj [("type", JVal.str "message_stop")])]

/-- One `tool_call` of the loop: `handle_tool_delta` under the
`isinstance(tool_call, dict)` guard (proxy.py:798-800). -/
def toolDeltaGuard (tc : JVal) (s : WState) : WState × List SEvent :=
  match tc with
  | JVal.obj _ => handleToolDelta tc s
  | _ => (s, [])

/-- The `handle_tool_delta` loop over `delta.get("tool_calls")`
(proxy.py:798-800). -/
def toolDeltasAll : WState → List JVal → WState × List SEvent
  | s, [] => (s, [])
  | s, tc :: rest =>
    match toolDeltaGuard tc s with
    | (s1, evs1) =>
      match toolDeltasAll s1 rest with
      | (s2, evs2) => (s2, evs1 ++ evs2)

/-- `usage = event_payload.get("usage"); if isinstance(usage, dict):
writer.usage = usage` (proxy.py:788-790). -/
def chatUsageUpdate (e : JVal) (s : WState) : WState :=
  match pyGet e "usage" with
  | JVal.obj u => { s with usage := JVal.obj u }
  | _ => s

/-- `if choice.get("finish_reason"): writer.finish_reason = ...`
(proxy.py:801-802). -/
def chatFinishUpdate (c : JVal) (s : WState) : WState :=
  if pyTruthy (pyGet c "finish_reason") then
    { s with finishReason := pyGet c "finish_reason" }
  else s

/-- Processing of `choices[0]` in the Chat stream loop
(proxy.py:794-802): the text delta (on key presence), the tool-call
deltas, and the finish reason. A non-dict choice would raise at
`choice.get` in the source and is skipped here. -/
def chatChoiceStep (c : JVal) (s : WState) : WState × List SEvent :=
  match c with
  | JVal.obj _ =>
    let delta := pyOr (pyGet c "delta") (JVal.obj [])
    (match (if hasKey delta "content" then handleTextDelta (pyGet delta "content") s
        else (s, [])) with
     | (s3, evs2) =>
       let tcs := match pyGet delta "tool_calls" with
         | JVal.arr xs => xs
         | _ => []
       match toolDeltasAll s3 tcs with
       | (s4, evs3) => (chatFinishUpdate c s4, evs2 ++ evs3))
  | _ => (s, [])

/-- One parsed SSE `data:` payload of the Chat-Completions stream
(`_handle_stream` loop body, proxy.py:776-802). Non-dict payloads are
skipped exactly as the source skips them; a truthy non-list `choices` or
`tool_calls` would raise in the source and is skipped here. -/
def chatStep (req : JVal) (s : WState) (e : JVal) : WState × List SEvent :=
  match e with
  | JVal.obj _ =>
    (match (if !s.started then startMessage req s (pyGet e "id") (pyGet e "model")
        else (s, [])) with
     | (s1, evs1) =>
       let s2 := chatUsageUpdate e s1
       match pyOr (pyGet e "choices") (JVal.arr []) with
       | JVal.arr (c :: _) =>
         (match chatChoiceStep c s2 with
          | (s5, evs23) => (s5, evs1 ++ evs23))
       | _ => (s2, evs1))
  | _ => (s, [])

def runChatEvents (req : JVal) : WState → List JVal → WState × List SEvent
  | s, [] => (s, [])
  | s, e :: rest =>
    match chatStep req s e with
    | (s1, evs1) =>
      match runChatEvents req s1 rest with
      | (s2, evs2) => (s2, evs1 ++ evs2)

/-- `_handle_stream` (proxy.py:768-806) over the parsed `data:` payloads
of a completed upstream stream (the payloads before the `[DONE]`
terminator; blank and non-`data:` lines never reach the parser, and an
unparseable payload is exactly a non-dict `JVal` here, which the loop
skips). -/
def runChatStream (req : JVal) (events : List JVal) : List SEvent :=
  match runChatEvents req initWState events with
  | (s, evs) => evs ++ (if s.started then finishWriter s else [])

/-- `str` coercion used where the Responses stream handler concatenates
or compares argument strings; a non-string truthy value would raise in
the source. -/
def asStrD (v : JVal) (d : String) : String :=
  match v with
  | JVal.str s => s
  | _ => d

/-- `int(event.get("output_index", 0) or 0)`: upstream output indices are
integers; a non-numeric truthy value would raise in the source. -/
def pyToInt (v : JVal) : Int :=
  match v with
  | JVal.num n => n
  | _ => 0

def taGet : List (Int × String) → Int → String
  | [], _ => ""
  | (k', v) :: rest, k => if k' = k then v else taGet rest k

def taSet : List (Int × String) → Int → String → List (Int × String)
  | [], k, v => [(k, v)]
  | (k', v') :: rest, k, v => if k' = k then (k, v) :: rest else (k', v') :: taSet rest k v

/-- `usage = resp.get("usage"); if isinstance(usage, dict): writer.usage
= {...}` in the terminal branch (proxy.py:887-892). -/
def respUsageUpdate (resp : JVal) (s : WState) : WState :=
  match pyGet resp "usage" with
  | JVal.obj u => { s with usage := JVal.obj [
      ("prompt_tokens", pyGetD (JVal.obj u) "input_tokens" (JVal.num 0)),
      ("completion_tokens", pyGetD (JVal.obj u) "output_tokens" (JVal.num 0))] }
  | _ => s

/-- The `incomplete_details.reason` check of the terminal branch
(proxy.py:893-898). -/
def respIncompleteUpdate (resp : JVal) (s : WState) : WState :=
  let inc := pyOr (pyGet resp "incomplete_details") (JVal.obj [])
  if isObjJ inc ∧ (pyGet inc "reason" = JVal.str "max_tokens" ∨
      pyGet inc "reason" = JVal.str "max_output_tokens") then
    { s with finishReason := JVal.str "length" }
  else s

/-- One parsed SSE payload of the Responses-API stream
(`_handle_responses_stream` loop body, proxy.py:817-897): the new writer
state, the new per-index `tool_args` accumulator, the frames written,
and whether the loop breaks (terminal event). -/
def respStep (req : JVal) (s : WState) (ta : List (Int × String)) (e : JVal) :
    WState × List (Int × String) × List SEvent × Bool :=
  match e with
  | JVal.obj _ =>
    let etype := pyGet e "type"
    if etype = JVal.str "response.created" ∨ etype = JVal.str "response.in_progress" ∨
        etype = JVal.str "response.queued" then
      let resp := pyOr (pyGet e "response") (JVal.obj [])
      match (if !s.started then startMessage req s (pyGet resp "id")
          (pyOr (pyGet resp "model") req) else (s, [])) with
      | (s1, evs) => (s1, ta, evs, false)
    else if etype = JVal.str "response.output_text.delta" then
      match (if !s.started then startMessage req s (pyGet e "response_id") req
          else (s, [])) with
      | (s1, evs1) =>
        match handleTextDelta (pyGet e "delta") s1 with
        | (s2, evs2) => (s2, ta, evs1 ++ evs2, false)
    else if etype = JVal.str "response.output_text.done" then
      match (if !s.started then startMessage req s (pyGet e "response_id") req
          else (s, [])) with
      | (s1, evs1) =>
        match handleTextDelta (pyGet e "text") s1 with
        | (s2, evs2) => (s2, ta, evs1 ++ evs2, false)
    else if etype = JVal.str "response.output_item.added" then
      let item := pyOr (pyGet e "item") (JVal.obj [])
      match item with
      | JVal.obj _ =>
        if pyGet item "type" ≠ JVal.str "function_call" then (s, ta, [], false)
        else
          let idx := pyToInt (pyOr (pyGetD e "output_index" (JVal.num 0)) (JVal.num 0))
          let callId := pyOr (pyGet item "call_id") (pyOr (pyGet item "id")
            (JVal.str ("tool_" ++ uuidHex)))
          let name := pyOr (pyGet item "name") (JVal.str "tool")
          let args := pyOr (pyGet item "arguments") (JVal.str "")
          match (if !s.started then startMessage req s (pyGet e "response_id") req
              else (s, [])) with
          | (s1, evs1) =>
            match handleToolDelta (JVal.obj [("index", JVal.num idx), ("id", callId),
                ("function", JVal.obj [("name", name), ("arguments", args)])]) s1 with
            | (s2, evs2) => (s2, taSet ta idx (asStrD args ""), evs1 ++ evs2, false)
      | _ => (s, ta, [], false)
    else if etype = JVal.str "response.function_call_arguments.delta" then
      let idx := pyToInt (pyOr (pyGetD e "output_index" (JVal.num 0)) (JVal.num 0))
      let delta := pyOr (pyGet e "delta") (JVal.str "")
      let ta1 := taSet ta idx (taGet ta idx ++ asStrD delta "")
      match (if !s.started then startMessage req s (pyGet e "response_id") req
          else (s, [])) with
      | (s1, evs1) =>
        match handleToolDelta (JVal.obj [("index", JVal.num idx),
            ("function", JVal.obj [("arguments", delta)])]) s1 with
        | (s2, evs2) => (s2, ta1, evs1 ++ evs2, false)
    else if etype = JVal.str "response.function_call_arguments.done" then
      let idx := pyToInt (pyOr (pyGetD e "output_index" (JVal.num 0)) (JVal.num 0))
      let full := asStrD (pyOr (pyGet e "arguments") (JVal.str "")) ""
      let prev := taGet ta idx
      if full ≠ "" ∧ strStarts full prev then
        let remaining : String := ⟨full.data.drop prev.data.length⟩
        match (if remaining ≠ "" then
            handleToolDelta (JVal.obj [("index", JVal.num idx),
              ("function", JVal.obj [("arguments", JVal.str remaining)])]) s
          else (s, [])) with
        | (s1, evs) => (s1, taSet ta idx full, evs, false)
      else (s, ta, [], false)
    else if etype = JVal.str "response.completed" ∨ etype = JVal.str "response.incomplete" ∨
        etype = JVal.str "response.failed" then
      let resp := pyOr (pyGet e "response") (JVal.obj [])
      match (if !s.started then startMessage req s
          (pyOr (pyGet resp "id") (pyGet e "response_id"))
          (pyOr (pyGet resp "model") req) else (s, [])) with
      | (s1, evs) =>
        (respIncompleteUpdate resp (respUsageUpdate resp s1), ta, evs, true)
    else (s, ta, [], false)
  | _ => (s, ta, [], false)

def runRespEvents (req : JVal) : WState → List (Int × String) → List JVal →
    WState × List SEvent
  | s, _, [] => (s, [])
  | s, ta, e :: rest =>
    match respStep req s ta e with
    | (s1, ta1, evs1, stop) =>
      if stop then (s1, evs1)
      else
        match runRespEvents req s1 ta1 rest with
        | (s2, evs2) => (s2, evs1 ++ evs2)

/-- `_handle_responses_stream` (proxy.py:808-901) over the parsed `data:`
payloads of a completed upstream stream. -/
def runRespStream (req : JVal) (events : List JVal) : List SEvent :=
  match runRespEvents req initWState [] events with
  | (s, evs) => evs ++ (if s.started then finishWriter s else [])

def isStartEvent (e : SEvent) : Bool := e.1 = "content_block_start"

def isStopEvent (e : SEvent) : Bool := e.1 = "content_block_stop"

/-- The `index` fields of the `content_block_start` frames of a stream,
in emission order. -/
def startIdxVals (evs : List SEvent) : List JVal :=
  (evs.filter isStartEvent).map (fun e => pyGet e.2 "index")

def numStarts (evs : List SEvent) : Nat := (evs.filter isStartEvent).length

def numStops (evs : List SEvent) : Nat := (evs.filter isStopEvent).length

def natIdxList (l : List Nat) : List JVal := l.map (fun n => JVal.num (Int.ofNat n))

/-! ## Helpers for the claims about translated content -/

/-- Number of `tool_use` blocks in a translated `content` array. -/
def toolUseCount (content : JVal) : Nat :=
  match content with
  | JVal.arr xs => (xs.filter (fun b => pyGet b "type" == JVal.str "tool_use")).length
  | _ => 0

/-- The `tool_calls` shapes on which the translator's loop does not
raise in the source: a list, or anything falsy. -/
def toolCallsWF (message : JVal) : Bool :=
  match pyGet message "tool_calls" with
  | JVal.arr _ => true
  | v => !pyTruthy v

/-! ## Module evaluation of `proxy_manager.py`

`proxy_manager.py` has no `from __future__ import annotations`, so CPython
evaluates every annotation expression when the `def` statement executes
at module load; an annotation name that is not bound in the module namespace
raises `NameError` and aborts the import. The tables below transcribe the
module's import statements (lines 4-13) and its `def` statements with the
root names their annotations reference, in source order. -/

/-- Names bound by proxy_manager.py's imports (lines 4-13): the imported
modules plus `List` and `Tuple` from `typing`. `Optional` is not among
them. -/
def proxyManagerImportedNames : List String :=
  ["json", "os", "signal", "subprocess", "sys", "time", "urllib", "List", "Tuple"]

/-- The Python builtins referenced by the module's annotations. -/
def pyBuiltinNames : List String := ["str", "int", "float", "bool", "dict"]

/-- The module's `def` statements in source order with the root names of
their parameter/return annotations, in evaluation order. -/
def proxyManagerDefs : List (String × List String) := [
  ("parse_proxy_url", ["str", "Tuple"]),
  ("is_local_host", ["str", "bool"]),
  ("proxy_health_url", ["str"]),
  ("check_proxy_health", ["str", "float", "Optional"]),
  ("is_proxy_compatible", ["dict", "bool"]),
  ("build_proxy_url", ["str", "int", "str"]),
  ("candidate_proxy_urls", ["str", "int", "str", "int"]),
  ("powershell_json", ["str", "Optional"]),
  ("list_proxy_processes", ["List", "Tuple"]),
  ("list_listening_pids", ["int", "List"]),
  ("terminate_proxy_processes", ["str", "List"]),
  ("start_proxy_process", ["str", "str", "Tuple", "Optional"]),
  ("start_proxy_and_wait", ["str", "str", "Tuple", "Optional"]),
  ("ensure_proxy_running", ["str", "str", "bool", "Tuple", "Optional"])]

/-- Module evaluation of the `def` statements: each `def` resolves its
annotation names against the names bound so far (builtins, imports, and
previously defined functions); the first unbound name raises `NameError`
(reported as the failing def's name with the unbound name) and aborts the
load. On success the final list of bound names is returned. -/
def evalPyDefs (bound : List String) :
    List (String × List String) → Except (String × String) (List String)
  | [] => Except.ok bound
  | (d, anns) :: rest =>
    match anns.find? (fun n => !bound.contains n) with
    | some n => Except.error (d, n)
    | none => evalPyDefs (bound ++ [d]) rest

/-- Loading `proxy_manager.py`: evaluate its defs over builtins and the
imported names. -/
def proxyManagerLoad : Except (String × String) (List String) :=
  evalPyDefs (pyBuiltinNames ++ proxyManagerImportedNames) proxyManagerDefs

/-- Annotation names of one of the module's defs. -/
def proxyManagerAnnsOf (d : String) : List String :=
  ((proxyManagerDefs.find? (fun e => e.1 = d)).map Prod.snd).getD []

/-! ## Concrete fixtures from the spec's scenarios -/

/-- Scenario S1 upstream Chat reply. -/
def s1UpstreamReply : JVal := JVal.obj [("id", JVal.str "c1"),
  ("choices", JVal.arr [JVal.obj [("message", JVal.obj [("content", JVal.str "hello")]),
    ("finish_reason", JVal.str "stop")]]),
  ("usage", JVal.obj [("prompt_tokens", JVal.num 3), ("completion_tokens", JVal.num 5)])]

/-- Scenario S1 request body. -/
def s1RequestBody : String :=
  "\x7b\"model\":\"gpt-4o\",\"messages\":[\x7b\"role\":\"user\",\"content\":\"hi\"\x7d]\x7d"

/-- The S1 reply the spec claims (`model` = `"gpt-4o"`). -/
def s1ClaimedReply : JVal := JVal.obj [
  ("id", JVal.str "msg_c1"), ("type", JVal.str "message"), ("role", JVal.str "assistant"),
  ("model", JVal.str "gpt-4o"),
  ("content", JVal.arr [JVal.obj [("type", JVal.str "text"), ("text", JVal.str "hello")]]),
  ("stop_reason", JVal.str "end_turn"), ("stop_sequence", JVal.null),
  ("usage", JVal.obj [("input_tokens", JVal.num 3), ("output_tokens", JVal.num 5)])]

/-- The S1 reply the code produces (`model` = `""`: the upstream reply
carries no `model` field and `openai_to_anthropic` never receives the
requested model). -/
def s1ActualReply : JVal := JVal.obj [
  ("id", JVal.str "msg_c1"), ("type", JVal.str "message"), ("role", JVal.str "assistant"),
  ("model", JVal.str ""),
  ("content", JVal.arr [JVal.obj [("type", JVal.str "text"), ("text", JVal.str "hello")]]),
  ("stop_reason", JVal.str "end_turn"), ("stop_sequence", JVal.null),
  ("usage", JVal.obj [("input_tokens", JVal.num 3), ("output_tokens", JVal.num 5)])]

def s1Oracle : Bool → UpResult := fun _ => UpResult.ok 200 s1UpstreamReply

/-- A Chat payload whose `finish_reason` is `"tool_calls"` with no
`tool_calls` on the message. -/
def c2Payload : JVal := JVal.obj [("choices", JVal.arr [JVal.obj [
  ("message", JVal.obj [("content", JVal.str "hi")]),
  ("finish_reason", JVal.str "tool_calls")]])]

/-- The S3 fallback error body. -/
def c3ErrorBody : String :=
  "\x7b\"error\":\x7b\"message\":\"This model is not a chat model and thus not supported in the v1/chat/completions endpoint\"\x7d\x7d"

def c3Oracle : Bool → UpResult := fun r =>
  if r then UpResult.ok 200 (JVal.obj []) else UpResult.httpError 400 c3ErrorBody

/-! ## Claims -/

/-- C9: `proxy_manager.py` cannot be loaded as shipped. `Optional` occurs
in the annotations of `check_proxy_health`, `start_proxy_process`,
`start_proxy_and_wait` and `ensure_proxy_running`, but the module binds
only `List` and `Tuple` from `typing` (plus module imports and builtins)
and has no `from __future__ import annotations`, so module evaluation
raises `NameError` at `check_proxy_health` — the first definition whose
annotations mention `Optional` — and the module never loads: no
supervisor operation, `ensure_proxy_running` included, is reachable. -/
theorem claim_C9 :
    proxyManagerLoad = Except.error ("check_proxy_health", "Optional") ∧
    "Optional" ∈ proxyManagerAnnsOf "check_proxy_health" ∧
    "Optional" ∈ proxyManagerAnnsOf "start_proxy_process" ∧
    "Optional" ∈ proxyManagerAnnsOf "start_proxy_and_wait" ∧
    "Optional" ∈ proxyManagerAnnsOf "ensure_proxy_running" ∧
    "Optional" ∉ pyBuiltinNames ++ proxyManagerImportedNames ∧
    (∀ names, proxyManagerLoad ≠ Except.ok names) := by
  refine ⟨rfl, by decide, by decide, by decide, by decide, by decide, ?_⟩
  intro names h
  rw [show proxyManagerLoad = Except.error ("check_proxy_health", "Optional") from rfl]
    at h
  exact Except.noConfusion h

/-- C1 counterexample: for the S1 request and upstream reply, the body the
proxy returns is not the object the claim states — its `model` field is
`""`, not `"gpt-4o"`, because the upstream reply has no `model` field and
the Chat translator is never given the requested model. -/
theorem claim_C1_counterexample :
    (doPost ⟨"", "", ""⟩ [("x-api-key", "k")] "/v1/messages" s1RequestBody s1Oracle).body ≠
      RespBody.json s1ClaimedReply := by decide

/-- C1 (amended): for the S1 request the proxy answers 200 after exactly
one Chat-Completions attempt with the claimed object except that `model`
is `""` rather than the requested `"gpt-4o"`. -/
theorem claim_C1 :
    doPost ⟨"", "", ""⟩ [("x-api-key", "k")] "/v1/messages" s1RequestBody s1Oracle =
      ⟨200, RespBody.json s1ActualReply, [false]⟩ ∧
    s1ActualReply ≠ s1ClaimedReply := by decide

/-- C7 counterexample: the string `"required"` is neither `"auto"`,
`"none"`, nor a `{type:"tool", name}` object, yet `map_tool_choice`
returns it unchanged instead of `"auto"`. -/
theorem claim_C7_counterexample :
    map_tool_choice (JVal.str "required") = JVal.str "required" ∧
    JVal.str "required" ≠ JVal.str "auto" := by decide

/-- C5 counterexample: with the override flag set to `"1"` and the
whitespace-only model `" "`, the spec's rule says `true` (the flag is
set) but `should_use_responses` returns `false` (it rejects a model that
is blank after trimming before consulting the flag). -/
theorem claim_C5_counterexample :
    should_use_responses "1" (JVal.str " ") = false ∧
    shouldUseResponsesSpec "1" " " = true := by decide

/-- C2 counterexample: a payload with `finish_reason = "tool_calls"` and
no `tool_calls` is translated with `stop_reason = "tool_use"` although
its content has no `tool_use` block. -/
theorem claim_C2_counterexample :
    pyGet (openai_to_anthropic c2Payload) "stop_reason" = JVal.str "tool_use" ∧
    toolUseCount (pyGet (openai_to_anthropic c2Payload) "content") = 0 := by decide

/-- C8 counterexample: the empty request body is not valid JSON, yet the
handler substitutes `"{}"` for it and proceeds past the body check — here
to the 401 missing-key reply, not the claimed 400. -/
theorem claim_C8_counterexample :
    json_loads "" = none ∧
    (doPost ⟨"", "", ""⟩ [] "/v1/messages" "" (fun _ => UpResult.urlError "refused")).status
      = 401 ∧
    (doPost ⟨"", "", ""⟩ [] "/v1/messages" "" (fun _ => UpResult.urlError "refused")).status
      ≠ 400 := by decide

/-- C6 counterexample: for the base `"http://h/v1/extra"` (which already
contains a `v1` segment not at its end) and endpoint
`"v1/chat/completions"`, the built URL has two `v1` segments, not exactly
one. -/
theorem claim_C6_counterexample :
    build_upstream_url "http://h/v1/extra" "v1/chat/completions" =
      "http://h/v1/extra/v1/chat/completions" ∧
    v1SegCount (build_upstream_url "http://h/v1/extra" "v1/chat/completions") ≠ 1 := by
  decide

/-- C7 (amended): `map_tool_choice` passes every string through
unchanged (so `"auto"` and `"none"` in particular, but also `"required"`
or any other string); a dict whose `type` is `"auto"`/`"none"` returns
that type string; a dict of type `"tool"` with truthy `name` maps to
`{type:"function", function:{name}}`; every other value — any non-string
non-dict, or a dict passing none of those tests — maps to `"auto"`. -/
theorem claim_C7 :
    (∀ s : String, map_tool_choice (JVal.str s) = JVal.str s) ∧
    (∀ kvs, (pyGet (JVal.obj kvs) "type" = JVal.str "auto" ∨
        pyGet (JVal.obj kvs) "type" = JVal.str "none") →
      map_tool_choice (JVal.obj kvs) = pyGet (JVal.obj kvs) "type") ∧
    (∀ kvs, pyGet (JVal.obj kvs) "type" = JVal.str "tool" →
        pyTruthy (pyGet (JVal.obj kvs) "name") = true →
      map_tool_choice (JVal.obj kvs) = JVal.obj [("type", JVal.str "function"),
        ("function", JVal.obj [("name", pyGet (JVal.obj kvs) "name")])]) ∧
    (∀ v : JVal, (∀ s, v ≠ JVal.str s) → (∀ kvs, v ≠ JVal.obj kvs) →
      map_tool_choice v = JVal.str "auto") ∧
    (∀ kvs, pyGet (JVal.obj kvs) "type" ≠ JVal.str "auto" →
        pyGet (JVal.obj kvs) "type" ≠ JVal.str "none" →
        ¬ (pyGet (JVal.obj kvs) "type" = JVal.str "tool" ∧
            pyTruthy (pyGet (JVal.obj kvs) "name") = true) →
      map_tool_choice (JVal.obj kvs) = JVal.str "auto") := by
  refine ⟨fun s => rfl, ?_, ?_, ?_, ?_⟩
  · intro kvs h
    rcases h with h | h <;> simp [map_tool_choice, h]
  · intro kvs ht hn
    simp [map_tool_choice, ht, hn]
  · intro v hs ho
    cases v with
    | str s => exact absurd rfl (hs s)
    | obj kvs => exact absurd rfl (ho kvs)
    | null => rfl
    | bool b => rfl
    | num n => rfl
    | fnum m e => rfl
    | arr xs => rfl
  · intro kvs h1 h2 h3
    by_cases htool : pyGet (JVal.obj kvs) "type" = JVal.str "tool"
    · have hname : ¬ pyTruthy (pyGet (JVal.obj kvs) "name") = true :=
        fun hn => h3 ⟨htool, hn⟩
      simp [map_tool_choice, h1, h2, htool, hname]
    · simp [map_tool_choice, h1, h2, htool]

/-- C7 witness: the amended behaviour at concrete inputs. -/
theorem claim_C7_witness :
    map_tool_choice (JVal.str "auto") = JVal.str "auto" ∧
    map_tool_choice (JVal.obj [("type", JVal.str "tool"), ("name", JVal.str "f")]) =
      JVal.obj [("type", JVal.str "function"),
        ("function", JVal.obj [("name", JVal.str "f")])] ∧
    map_tool_choice (JVal.num 3) = JVal.str "auto" :=
  ⟨claim_C7.1 "auto",
   (claim_C7.2.2.1 [("type", JVal.str "tool"), ("name", JVal.str "f")]
      (by decide) (by decide)).trans (by decide),
   claim_C7.2.2.2.1 (JVal.num 3) (fun s h => JVal.noConfusion h)
     (fun kvs h => JVal.noConfusion h)⟩

/-- C5 (amended): `should_use_responses` agrees with the spec's rule for
every model string that is non-blank after trimming; for an absent model
or one that is blank after trimming it returns `false` even when the
override flag is set (this is the only divergence). The claim's listed
memberships hold as stated. -/
theorem claim_C5 :
    (∀ forceEnv model : String, strTrim model ≠ "" →
      should_use_responses forceEnv (JVal.str model) =
        shouldUseResponsesSpec forceEnv model) ∧
    (∀ forceEnv : String, should_use_responses forceEnv JVal.null = false) ∧
    (∀ forceEnv model : String, strTrim model = "" →
      should_use_responses forceEnv (JVal.str model) = false) ∧
    (should_use_responses "" (JVal.str "gpt-5") = true ∧
     should_use_responses "" (JVal.str "gpt-5.2-codex") = true ∧
     should_use_responses "" (JVal.str "o3-mini") = true ∧
     should_use_responses "" (JVal.str "anything-codex-anything") = true ∧
     should_use_responses "" (JVal.str "claude-3") = false ∧
     should_use_responses "" (JVal.str "kimi-k2.5") = false ∧
     should_use_responses "" (JVal.str "moonshot-v1") = false) := by
  refine ⟨?_, fun f => rfl, ?_, by decide⟩
  · intro f m hm
    have h0 : m ≠ "" := by
      intro h
      subst h
      exact hm rfl
    have h1 : (m != "") = true := by simpa using h0
    simp only [should_use_responses, shouldUseResponsesSpec, pyStr, pyTruthy, h1,
      Bool.not_true, Bool.false_eq_true, if_false, hm, if_neg]
    by_cases hA : strStarts (strLower (strTrim m)) "gpt-5" = true <;>
      by_cases hB : strStarts (strLower (strTrim m)) "o" = true <;>
      by_cases hC : strContains (strLower (strTrim m)) "codex" = true <;>
      by_cases hd : strTrim f ∈ (["1", "true", "yes", "on"] : List String) <;>
      simp [hA, hB, hC, hd, Bool.not_eq_true] at *
  · intro f m hm
    by_cases h0 : m = ""
    · subst h0; rfl
    · have h1 : (m != "") = true := by simpa using h0
      simp [should_use_responses, pyStr, pyTruthy, h1, hm]

/-- C5 witness: the amended agreement at a concrete model. -/
theorem claim_C5_witness :
    should_use_responses "" (JVal.str "gpt-5") = shouldUseResponsesSpec "" "gpt-5" :=
  claim_C5.1 "" "gpt-5" (by decide)

/-- C8 (amended): every POST to a `/messages` or `/v1/messages` path
whose body is non-empty and does not parse as a JSON object is answered
400 with exactly `{"error":{"type":"invalid_request","message":"Invalid
JSON"}}` and no upstream attempt is made. (An empty body, although not
valid JSON, is replaced by `"{}"` and proceeds past this check — see the
counterexample.) -/
theorem claim_C8 (env : EnvState) (headers : List (String × String))
    (path rawText : String) (oracle : Bool → UpResult)
    (hpath : (strEnds (urlPathOnly path) "/messages" ||
      strEnds (urlPathOnly path) "/v1/messages") = true)
    (hraw : rawText ≠ "")
    (hparse : ∀ kvs, safe_json_loads rawText ≠ some (JVal.obj kvs)) :
    doPost env headers path rawText oracle = ⟨400, RespBody.json invalidJsonBody, []⟩ := by
  unfold doPost
  rw [if_neg (by simp [hpath]), if_neg hraw]
  dsimp only
  rcases h : safe_json_loads rawText with _ | v
  · rfl
  · cases v with
    | obj kvs => exact absurd h (hparse kvs)
    | null => rfl
    | bool b => rfl
    | num n => rfl
    | fnum a b => rfl
    | str s => rfl
    | arr xs => rfl

/-- C8 witness: the literal S6 body `"not json"`. -/
theorem claim_C8_witness :
    doPost ⟨"", "", ""⟩ [] "/v1/messages" "not json" (fun _ => UpResult.urlError "x") =
      ⟨400, RespBody.json invalidJsonBody, []⟩ :=
  claim_C8 ⟨"", "", ""⟩ [] "/v1/messages" "not json" (fun _ => UpResult.urlError "x")
    (by decide) (by decide)
    (fun kvs h => by
      rw [show safe_json_loads "not json" = none from rfl] at h
      exact Option.noConfusion h)

/-- C3: dispatch fallback. (a) When the first attempt used the Chat
Completions path (`should_use_responses` is false for the request) and
the upstream returned an HTTP error whose body satisfies
`is_not_chat_model_error` — `error.message` (or top-level `message`)
containing both "not a chat model" and "chat/completions"
case-insensitively, or containing "v1/chat/completions" — the endpoints
called are exactly `[chat, responses]`: one retry on the Responses path,
whatever the retry returns. (b) When the first attempt used the
Responses path, the endpoints called are exactly `[responses]` for every
upstream outcome: a Responses→Chat retry never happens. -/
theorem claim_C3 :
    (∀ (env : EnvState) (headers : List (String × String)) (path rawText : String)
        (oracle : Bool → UpResult) (kvs : List (String × JVal)) (code : Nat) (body : String),
      (strEnds (urlPathOnly path) "/messages" ||
        strEnds (urlPathOnly path) "/v1/messages") = true →
      rawText ≠ "" →
      safe_json_loads rawText = some (JVal.obj kvs) →
      strOptTruthy (extract_api_key headers env) = true →
      should_use_responses env.forceResponses (pyGet (JVal.obj kvs) "model") = false →
      oracle false = UpResult.httpError code body →
      is_not_chat_model_error (safe_json_loads body) = true →
      (doPost env headers path rawText oracle).attempts = [false, true]) ∧
    (∀ (env : EnvState) (headers : List (String × String)) (path rawText : String)
        (oracle : Bool → UpResult) (kvs : List (String × JVal)),
      (strEnds (urlPathOnly path) "/messages" ||
        strEnds (urlPathOnly path) "/v1/messages") = true →
      rawText ≠ "" →
      safe_json_loads rawText = some (JVal.obj kvs) →
      strOptTruthy (extract_api_key headers env) = true →
      should_use_responses env.forceResponses (pyGet (JVal.obj kvs) "model") = true →
      (doPost env headers path rawText oracle).attempts = [true]) := by
  constructor
  · intro env headers path rawText oracle kvs code body hpath hraw hparse hkey hu horacle herr
    unfold doPost
    rw [if_neg (by simp [hpath]), if_neg hraw]
    dsimp only
    rw [hparse]
    dsimp only
    rw [hkey]
    simp only [Bool.not_true, Bool.false_eq_true, if_false]
    rw [hu, horacle]
    dsimp only
    rw [herr]
    simp only [Bool.not_false, Bool.true_and, if_true]
    rcases o2 : oracle true with ⟨st2, b2⟩ | ⟨c2, b2⟩ | m
    · dsimp only
      split <;> rfl
    · dsimp only
      rcases safe_json_loads b2 with _ | rp <;> rfl
    · rfl
  · intro env headers path rawText oracle kvs hpath hraw hparse hkey hu
    unfold doPost
    rw [if_neg (by simp [hpath]), if_neg hraw]
    dsimp only
    rw [hparse]
    dsimp only
    rw [hkey]
    simp only [Bool.not_true, Bool.false_eq_true, if_false]
    rw [hu]
    rcases o1 : oracle true with ⟨st, b⟩ | ⟨code, body⟩ | m
    · dsimp only
      split <;> rfl
    · dsimp only
      simp only [Bool.not_true, Bool.false_and, Bool.false_eq_true, if_false]
      rcases safe_json_loads body with _ | ep <;> rfl
    · rfl

/-- C3 witness: the S3 scenario — Chat attempt fails with the
"not a chat model" body, exactly one Responses retry follows. -/
theorem claim_C3_witness :
    (doPost ⟨"", "", ""⟩ [("x-api-key", "k")] "/v1/messages" s1RequestBody
      c3Oracle).attempts = [false, true] :=
  claim_C3.1 ⟨"", "", ""⟩ [("x-api-key", "k")] "/v1/messages" s1RequestBody c3Oracle
    [("model", JVal.str "gpt-4o"),
     ("messages", JVal.arr [JVal.obj [("role", JVal.str "user"), ("content", JVal.str "hi")]])]
    400 c3ErrorBody
    (by decide) (by decide) (by decide) (by decide) (by decide) rfl (by decide)

/-- The `stop_reason` field of a Chat translation, in terms of the
extracted finish reason and tool-call flag. -/
theorem pyGet_openai_stop_reason (p : JVal) :
    pyGet (openai_to_anthropic p) "stop_reason" =
      JVal.str (map_finish_reason (chatFinishReasonOf p)
        (openai_message_to_blocks (chatMessageOf p)).2) := by
  simp [openai_to_anthropic, pyGet, objLookup]

/-- The `content` field of a Chat translation. -/
theorem pyGet_openai_content (p : JVal) :
    pyGet (openai_to_anthropic p) "content" =
      JVal.arr (openai_message_to_blocks (chatMessageOf p)).1 := by
  simp [openai_to_anthropic, pyGet, objLookup]

/-- `map_finish_reason` yields `"tool_use"` exactly for `"tool_calls"` or
a present tool call. -/
theorem map_finish_reason_eq_toolUse (fr : JVal) (b : Bool) :
    map_finish_reason fr b = "tool_use" ↔ (fr = JVal.str "tool_calls" ∨ b = true) := by
  unfold map_finish_reason
  split_ifs with h1 h2 <;> simp_all

/-- Every block built from a tool call is a `tool_use` block. -/
theorem filter_toolUse_map (xs : List JVal) :
    (xs.map toolCallToBlock).filter (fun b => pyGet b "type" == JVal.str "tool_use") =
      xs.map toolCallToBlock := by
  induction xs with
  | nil => rfl
  | cons c cs ih =>
      simp only [List.map_cons, List.filter_cons]
      rw [if_pos (by rfl), ih]

/-- The number of `tool_use` blocks a Chat message translates to is the
number of its tool calls. -/
theorem toolUseCount_blocks (m : JVal) :
    toolUseCount (JVal.arr (openai_message_to_blocks m).1) = (toolCallsList m).length := by
  unfold openai_message_to_blocks toolUseCount
  dsimp only
  rw [List.filter_append, filter_toolUse_map]
  have htext : (if pyTruthy (chatTextContent m) = true then
      [JVal.obj [("type", JVal.str "text"), ("text", chatTextContent m)]]
      else []).filter (fun b => pyGet b "type" == JVal.str "tool_use") = [] := by
    split <;> rfl
  rw [htext]
  simp

/-- On a well-formed `tool_calls` field the `bool(tool_calls)` flag is
list-nonemptiness. -/
theorem hasToolCalls_eq (m : JVal) (hwf : toolCallsWF m = true) :
    (openai_message_to_blocks m).2 = !(toolCallsList m).isEmpty := by
  unfold toolCallsWF at hwf
  unfold openai_message_to_blocks toolCallsList
  dsimp only
  rcases h : pyGet m "tool_calls" with _ | b | n | ⟨mm, ee⟩ | s | xs | kvs
  case null => rfl
  case bool =>
    rw [h] at hwf
    have hb : b = false := by simpa [pyTruthy] using hwf
    subst hb
    rfl
  case num =>
    rw [h] at hwf
    have hn : n = 0 := by simpa [pyTruthy] using hwf
    subst hn
    rfl
  case fnum =>
    rw [h] at hwf
    have hn : mm = 0 := by simpa [pyTruthy] using hwf
    subst hn
    rfl
  case str =>
    rw [h] at hwf
    have hs : s = "" := by simpa [pyTruthy] using hwf
    subst hs
    rfl
  case arr => cases xs <;> rfl
  case obj =>
    rw [h] at hwf
    have hk : kvs = [] := by simpa [pyTruthy] using hwf
    subst hk
    rfl

/-- C2 (amended): for every upstream Chat payload whose
`choices[0].message.tool_calls` is a list or falsy (anything else raises
in the source), the translated `stop_reason` is `"tool_use"` iff the
translated content has at least one `tool_use` block OR
`choices[0].finish_reason` equals `"tool_calls"` — with empty
`tool_calls`, a bare `finish_reason = "tool_calls"` still yields
`"tool_use"` with no `tool_use` block, so the claim's iff fails in that
one direction. -/
theorem claim_C2 (payload : JVal)
    (hwf : toolCallsWF (chatMessageOf payload) = true) :
    pyGet (openai_to_anthropic payload) "stop_reason" = JVal.str "tool_use" ↔
      (1 ≤ toolUseCount (pyGet (openai_to_anthropic payload) "content") ∨
        chatFinishReasonOf payload = JVal.str "tool_calls") := by
  rw [pyGet_openai_stop_reason, pyGet_openai_content, toolUseCount_blocks,
    hasToolCalls_eq _ hwf]
  constructor
  · intro h
    have h1 : map_finish_reason (chatFinishReasonOf payload)
        (!(toolCallsList (chatMessageOf payload)).isEmpty) = "tool_use" := by
      simpa using h
    rcases (map_finish_reason_eq_toolUse _ _).mp h1 with h2 | h2
    · exact Or.inr h2
    · left
      have h3 : toolCallsList (chatMessageOf payload) ≠ [] := by
        simpa [List.isEmpty_iff] using h2
      have h4 : (toolCallsList (chatMessageOf payload)).length ≠ 0 := by
        simpa [List.length_eq_zero] using h3
      omega
  · intro h
    have h1 : chatFinishReasonOf payload = JVal.str "tool_calls" ∨
        (!(toolCallsList (chatMessageOf payload)).isEmpty) = true := by
      rcases h with h | h
      · right
        have h3 : toolCallsList (chatMessageOf payload) ≠ [] := by
          intro he
          rw [he] at h
          simp at h
        simpa [List.isEmpty_iff] using h3
      · exact Or.inl h
    have := (map_finish_reason_eq_toolUse _ _).mpr h1
    rw [this]

/-- C2 witness: the amended equivalence at the counterexample payload
(`finish_reason = "tool_calls"`, no tool calls). -/
theorem claim_C2_witness :
    pyGet (openai_to_anthropic c2Payload) "stop_reason" = JVal.str "tool_use" :=
  (claim_C2 c2Payload (by decide)).mpr (Or.inr (by decide))

/-- The `content` field of a Responses translation. -/
theorem pyGet_responses_content (p rm : JVal) :
    pyGet (openai_responses_to_anthropic p rm) "content" =
      JVal.arr (if (respBlocksOf p).1.isEmpty then
        [JVal.obj [("type", JVal.str "text"), ("text", JVal.str "")]]
      else (respBlocksOf p).1) := by
  simp [openai_responses_to_anthropic, pyGet, objLookup]

/-- C10: the non-empty-content guarantee holds only on the Responses
path. `openai_responses_to_anthropic` always returns at least one
content block (an empty text block when nothing was emitted);
`openai_to_anthropic` returns empty content whenever the message has
neither truthy text nor tool calls (which includes every payload without
choices). -/
theorem claim_C10 :
    (∀ payload requestedModel : JVal, ∃ b bs,
      pyGet (openai_responses_to_anthropic payload requestedModel) "content" =
        JVal.arr (b :: bs)) ∧
    (∀ payload : JVal,
      pyTruthy (chatTextContent (chatMessageOf payload)) = false →
      toolCallsList (chatMessageOf payload) = [] →
      pyGet (openai_to_anthropic payload) "content" = JVal.arr []) := by
  constructor
  · intro p rm
    rw [pyGet_responses_content]
    rcases hb : (respBlocksOf p).1 with _ | ⟨x, xs⟩
    · exact ⟨_, _, rfl⟩
    · simp only [List.isEmpty_cons, Bool.false_eq_true, if_false]
      exact ⟨x, xs, rfl⟩
  · intro p htext htc
    rw [pyGet_openai_content]
    unfold openai_message_to_blocks
    dsimp only
    rw [htc, htext]
    simp

/-- C10 witness: the guarantees at the empty payload. -/
theorem claim_C10_witness :
    (∃ b bs, pyGet (openai_responses_to_anthropic (JVal.obj []) JVal.null) "content" =
      JVal.arr (b :: bs)) ∧
    pyGet (openai_to_anthropic (JVal.obj [])) "content" = JVal.arr [] :=
  ⟨claim_C10.1 (JVal.obj []) JVal.null, claim_C10.2 (JVal.obj []) (by decide) (by decide)⟩

theorem segs_cons_slash (cs : List Char) : segs ('/' :: cs) = [] :: segs cs := by
  rw [segs]
  rw [if_pos rfl]

theorem segs_cons_ne (c : Char) (cs : List Char) (h : ¬ c = '/') :
    segs (c :: cs) = match segs cs with
      | s :: rest => (c :: s) :: rest
      | [] => [[c]] := by
  rw [segs]
  rw [if_neg h]

theorem segs_ne_nil (l : List Char) : segs l ≠ [] := by
  induction l with
  | nil => simp [segs]
  | cons c cs ih =>
      by_cases h : c = '/'
      · subst h
        rw [segs_cons_slash]
        simp
      · rw [segs_cons_ne c cs h]
        rcases hs : segs cs with _ | ⟨s, rest⟩
        · exact absurd hs ih
        · simp

/-- Splitting at `/` distributes over concatenation through a slash. -/
theorem segs_append (xs ys : List Char) :
    segs (xs ++ '/' :: ys) = segs xs ++ segs ys := by
  induction xs with
  | nil => simp [segs]
  | cons c cs ih =>
      by_cases h : c = '/'
      · subst h
        rw [List.cons_append, segs_cons_slash, ih, segs_cons_slash]
        rfl
      · rw [List.cons_append, segs_cons_ne c _ h, segs_cons_ne c cs h, ih]
        rcases hs : segs cs with _ | ⟨s, rest⟩
        · exact absurd hs (segs_ne_nil cs)
        · simp

/-- C6 (amended): for both endpoints, the built URL has exactly one `v1`
path segment whenever the normalized base contains `v1` as a segment
only, possibly, as its trailing `/v1` (i.e. its own `v1`-segment count is
1 when it ends in `/v1` and 0 otherwise). (For a base already containing
some other `v1` segment the property fails — see the counterexample.) -/
theorem claim_C6 (base endpoint : String)
    (hend : endpoint = "v1/chat/completions" ∨ endpoint = "v1/responses")
    (hbase : (segs (rstripChar '/' base.data)).count "v1".data =
      (if "/v1".data.isSuffixOf (rstripChar '/' base.data) then 1 else 0)) :
    v1SegCount (build_upstream_url base endpoint) = 1 := by
  have main : ∀ e : List Char,
      lstripChar '/' e = e →
      e.isEmpty = false →
      "v1/".data.isPrefixOf e = true →
      (segs (e.drop 3)).count "v1".data = 0 →
      (segs e).count "v1".data = 1 →
      (segs (buildUpstreamUrlChars base.data e)).count "v1".data = 1 := by
    intro e hstrip hne hpre hdrop hcount
    unfold buildUpstreamUrlChars
    dsimp only
    rw [hstrip, hne]
    simp only [Bool.false_eq_true, if_false]
    by_cases hsuf : "/v1".data.isSuffixOf (rstripChar '/' base.data) = true
    · rw [if_pos hsuf, if_pos hpre]
      have hsx : "/v1".data <:+ rstripChar '/' base.data := by
        exact List.isSuffixOf_iff_suffix.mp hsuf
      obtain ⟨t, ht⟩ := hsx
      rw [if_pos hsuf] at hbase
      obtain ⟨v1e, hv1e⟩ : ∃ v1e, e = 'v' :: '1' :: '/' :: v1e := by
        obtain ⟨rest, hrest⟩ := List.isPrefixOf_iff_prefix.mp hpre
        exact ⟨rest, by rw [← hrest]; rfl⟩
      have hdrop3 : e.drop 3 = v1e := by
        rw [hv1e]
        rfl
      rw [← ht]
      have harr : (t ++ '/' :: 'v' :: '1' :: []) ++ '/' :: e.drop 3 =
          t ++ '/' :: ('v' :: '1' :: '/' :: e.drop 3) := by simp
      have hba : t ++ "/v1".data = t ++ '/' :: 'v' :: '1' :: [] := rfl
      rw [hba, harr, segs_append]
      have hsegB : segs (t ++ '/' :: 'v' :: '1' :: []) =
          segs t ++ segs ('v' :: '1' :: []) :=
        segs_append t ('v' :: '1' :: [])
      rw [← hba, ht] at hsegB
      rw [hsegB] at hbase
      rw [List.count_append] at hbase
      have hv1seg : (segs ('v' :: '1' :: [])).count "v1".data = 1 := by decide
      rw [hv1seg] at hbase
      have htcount : (segs t).count "v1".data = 0 := by omega
      rw [List.count_append, htcount]
      have : segs ('v' :: '1' :: '/' :: e.drop 3) = ['v', '1'] :: segs (e.drop 3) := by
        rw [show ('v' :: '1' :: '/' :: e.drop 3) = ['v', '1'] ++ '/' :: e.drop 3 from rfl,
          segs_append]
        rfl
      rw [this]
      simp only [List.count_cons]
      rw [hdrop]
      decide
    · rw [if_neg hsuf, if_pos hpre, segs_append, List.count_append]
      rw [if_neg hsuf] at hbase
      rw [hbase, hcount]
  rcases hend with he | he <;> subst he
  · exact main "v1/chat/completions".data rfl rfl rfl (by decide) (by decide)
  · exact main "v1/responses".data rfl rfl rfl (by decide) (by decide)

/-- C6 witness: the default OpenAI base and Chat endpoint. -/
theorem claim_C6_witness :
    v1SegCount (build_upstream_url "https://api.openai.com" "v1/chat/completions") = 1 :=
  claim_C6 "https://api.openai.com" "v1/chat/completions" (Or.inl rfl) (by decide)

/-! ## The block-bracketing invariant of the stream writer (C4)

Both stream handlers drive an `AnthropicStreamWriter` and, once the
writer has started, call `finish`. The invariant: every writer operation
allocates `content_block_start` indices densely in order
(`startedBlocks` stays `List.range nextIndex`), emits no
`content_block_stop`, and never clears `started`; `finish` then emits
exactly one `content_block_stop` per started block. -/

/-- The `index` values `a, a+1, …, b-1` as JSON numbers. -/
def natIdxRange (a b : Nat) : List JVal := natIdxList (List.range' a (b - a))

/-- What a single writer operation (or a sequence of them) preserves and
produces: `nextIndex` grows, dense allocation is preserved, the
`content_block_start` frames emitted carry exactly the freshly allocated
indices in order, no `content_block_stop` is emitted, and `started`
never reverts. -/
def OpSpec (s s' : WState) (evs : List SEvent) : Prop :=
  s.nextIndex ≤ s'.nextIndex ∧
  (s.startedBlocks = List.range s.nextIndex →
    s'.startedBlocks = List.range s'.nextIndex) ∧
  startIdxVals evs = natIdxRange s.nextIndex s'.nextIndex ∧
  numStops evs = 0 ∧
  (s.started = true → s'.started = true)

theorem startIdxVals_append (a b : List SEvent) :
    startIdxVals (a ++ b) = startIdxVals a ++ startIdxVals b := by
  simp [startIdxVals, List.filter_append]

theorem numStops_append (a b : List SEvent) :
    numStops (a ++ b) = numStops a + numStops b := by
  simp [numStops, List.filter_append]

theorem numStarts_eq_length (evs : List SEvent) :
    numStarts evs = (startIdxVals evs).length := by
  simp [numStarts, startIdxVals]

theorem natIdxList_append (a b : List Nat) :
    natIdxList (a ++ b) = natIdxList a ++ natIdxList b := by
  simp [natIdxList]

theorem natIdxRange_self (a : Nat) : natIdxRange a a = [] := by
  simp [natIdxRange, natIdxList]

theorem natIdxRange_length (a b : Nat) : (natIdxRange a b).length = b - a := by
  unfold natIdxRange natIdxList
  rw [List.length_map, List.length_range']

theorem range'_glue (a b c : Nat) (h1 : a ≤ b) (h2 : b ≤ c) :
    List.range' a (b - a) ++ List.range' b (c - b) = List.range' a (c - a) := by
  have hb : a + (b - a) = b := by omega
  have h := List.range'_append_1 a (b - a) (c - b)
  rw [hb] at h
  rw [h, show c - b + (b - a) = c - a from by omega]

theorem OpSpec.same (s s' : WState) (h1 : s'.nextIndex = s.nextIndex)
    (h2 : s'.startedBlocks = s.startedBlocks) (h3 : s'.started = s.started) :
    OpSpec s s' [] := by
  refine ⟨by omega, ?_, ?_, rfl, ?_⟩
  · intro h
    rw [h2, h1, h]
  · rw [h1, natIdxRange_self]
    rfl
  · intro h
    rw [h3, h]

theorem opSpecId (s : WState) : OpSpec s s [] :=
  OpSpec.same s s rfl rfl rfl

theorem OpSpec.comp {s1 s2 s3 : WState} {e1 e2 : List SEvent}
    (h1 : OpSpec s1 s2 e1) (h2 : OpSpec s2 s3 e2) :
    OpSpec s1 s3 (e1 ++ e2) := by
  obtain ⟨le1, p1, v1, z1, m1⟩ := h1
  obtain ⟨le2, p2, v2, z2, m2⟩ := h2
  refine ⟨le_trans le1 le2, fun h => p2 (p1 h), ?_, ?_, fun h => m2 (m1 h)⟩
  · rw [startIdxVals_append, v1, v2]
    unfold natIdxRange
    rw [← natIdxList_append, range'_glue _ _ _ le1 le2]
  · rw [numStops_append, z1, z2]

theorem OpSpec.compNil {s1 s2 s3 : WState} {e1 : List SEvent}
    (h1 : OpSpec s1 s2 e1) (h2 : OpSpec s2 s3 []) : OpSpec s1 s3 e1 := by
  have h := h1.comp h2
  rwa [List.append_nil] at h

theorem OpSpec.alloc (s s' : WState) (ev : SEvent)
    (h1 : s'.nextIndex = s.nextIndex + 1)
    (h2 : s'.startedBlocks = s.startedBlocks ++ [s.nextIndex])
    (h3 : isStartEvent ev = true)
    (h4 : pyGet ev.2 "index" = JVal.num s.nextIndex)
    (h5 : isStopEvent ev = false)
    (h6 : s'.started = s.started) :
    OpSpec s s' [ev] := by
  refine ⟨by omega, ?_, ?_, ?_, ?_⟩
  · intro h
    rw [h2, h1, h, List.range_succ]
  · rw [h1]
    have hr : natIdxRange s.nextIndex (s.nextIndex + 1) = [JVal.num s.nextIndex] := by
      unfold natIdxRange natIdxList
      rw [show s.nextIndex + 1 - s.nextIndex = 1 from by omega]
      rfl
    rw [hr]
    simp [startIdxVals, List.filter_cons, h3, h4]
  · simp [numStops, List.filter_cons, h5]
  · intro h
    rw [h6, h]

theorem OpSpec.deltas (s s' : WState) (evs : List SEvent)
    (h1 : s'.nextIndex = s.nextIndex)
    (h2 : s'.startedBlocks = s.startedBlocks)
    (h3 : ∀ e ∈ evs, isStartEvent e = false ∧ isStopEvent e = false)
    (h4 : s.started = true → s'.started = true) :
    OpSpec s s' evs := by
  refine ⟨by omega, fun h => by rw [h2, h1, h], ?_, ?_, h4⟩
  · rw [h1, natIdxRange_self]
    unfold startIdxVals
    rw [List.filter_eq_nil_iff.mpr (fun e he => by simp [(h3 e he).1])]
    rfl
  · unfold numStops
    rw [List.filter_eq_nil_iff.mpr (fun e he => by simp [(h3 e he).2])]
    rfl

theorem flushEvents_nostartstop (i : Nat) (frags : List JVal) :
    ∀ e ∈ flushEvents i frags, isStartEvent e = false ∧ isStopEvent e = false := by
  intro e he
  unfold flushEvents at he
  rcases List.mem_map.mp he with ⟨f, _, rfl⟩
  exact ⟨rfl, rfl⟩

theorem startMessage_spec (req : JVal) (s : WState) (mid mdl : JVal) :
    OpSpec s (startMessage req s mid mdl).1 (startMessage req s mid mdl).2 := by
  unfold startMessage
  split
  · exact opSpecId s
  · dsimp only
    refine OpSpec.deltas _ _ _ rfl rfl ?_ (fun _ => rfl)
    intro e he
    rw [List.mem_singleton.mp he]
    exact ⟨rfl, rfl⟩

theorem startTextBlock_spec (s : WState) :
    OpSpec s (startTextBlock s).2.1 (startTextBlock s).2.2 := by
  unfold startTextBlock
  rcases h : s.textIndex with _ | i
  · dsimp only
    exact OpSpec.alloc s _ _ rfl rfl rfl rfl rfl rfl
  · exact opSpecId s

theorem startToolBlock_spec (key toolId name : JVal) (s : WState) :
    OpSpec s (startToolBlock key toolId name s).2.1
      (startToolBlock key toolId name s).2.2 := by
  unfold startToolBlock
  rcases h : tsGet s.toolStates key with _ | st
  · dsimp only
    exact OpSpec.alloc s _ _ rfl rfl rfl rfl rfl rfl
  · dsimp only
    rcases h2 : st.contentIndex with _ | ci
    · dsimp only
      exact OpSpec.alloc s _ _ rfl rfl rfl rfl rfl rfl
    · exact opSpecId s

theorem handleTextDelta_spec (t : JVal) (s : WState) :
    OpSpec s (handleTextDelta t s).1 (handleTextDelta t s).2 := by
  unfold handleTextDelta
  split
  · exact opSpecId s
  · have h := startTextBlock_spec s
    rcases hb : startTextBlock s with ⟨i, s1, evs⟩
    rw [hb] at h
    dsimp only
    refine h.comp (OpSpec.deltas _ _ _ rfl rfl ?_ (fun hh => hh))
    intro e he
    rw [List.mem_singleton.mp he]
    exact ⟨rfl, rfl⟩

theorem startAndFlush_spec (key toolId name : JVal) (pending : List JVal) (s : WState) :
    OpSpec s (startAndFlush key toolId name pending s).1
      (startAndFlush key toolId name pending s).2 := by
  unfold startAndFlush
  have h := startToolBlock_spec key toolId name s
  rcases hb : startToolBlock key toolId name s with ⟨i, s2, evs1⟩
  rw [hb] at h
  dsimp only
  exact h.comp (OpSpec.deltas _ _ _ rfl rfl (flushEvents_nostartstop i pending)
    (fun hh => hh))

theorem handleToolDelta_spec (tc : JVal) (s : WState) :
    OpSpec s (handleToolDelta tc s).1 (handleToolDelta tc s).2 := by
  unfold handleToolDelta
  dsimp only
  generalize pyGetD tc "index" (JVal.num 0) = key
  generalize toolDeltaState tc ((tsGet s.toolStates key).getD ⟨none, none, none, false, []⟩) = st3
  split
  · exact OpSpec.deltas _ _ _ rfl rfl (flushEvents_nostartstop _ _) (fun hh => hh)
  · split
    · exact (OpSpec.same s { s with toolStates := tsSet s.toolStates key st3 }
        rfl rfl rfl).comp
        (startAndFlush_spec key (optJOr st3.tsId (JVal.str ("tool_" ++ uuidHex)))
          (st3.tsName.getD JVal.null) st3.pendingArgs
          { s with toolStates := tsSet s.toolStates key st3 })
    · exact OpSpec.same _ _ rfl rfl rfl

theorem finalizeOne_spec (s : WState) (key : JVal) :
    OpSpec s (finalizeOne s key).1 (finalizeOne s key).2 := by
  unfold finalizeOne
  rcases h : tsGet s.toolStates key with _ | st
  · exact opSpecId s
  · dsimp only
    split
    · exact opSpecId s
    · split
      · exact opSpecId s
      · exact startAndFlush_spec _ _ _ _ s

theorem finalizeAll_cons (s : WState) (k : JVal) (ks : List JVal) :
    finalizeAll s (k :: ks) =
      ((finalizeAll (finalizeOne s k).1 ks).1,
        (finalizeOne s k).2 ++ (finalizeAll (finalizeOne s k).1 ks).2) := by
  conv_lhs => rw [finalizeAll]

theorem finalizeAll_spec (s : WState) (ks : List JVal) :
    OpSpec s (finalizeAll s ks).1 (finalizeAll s ks).2 := by
  induction ks generalizing s with
  | nil => exact opSpecId s
  | cons k ks ih =>
      rw [finalizeAll_cons]
      exact (finalizeOne_spec s k).comp (ih _)

theorem finalizePendingTools_spec (s : WState) :
    OpSpec s (finalizePendingTools s).1 (finalizePendingTools s).2 :=
  finalizeAll_spec s _

theorem numStops_cons_stop (e : SEvent) (evs : List SEvent) (h : isStopEvent e = true) :
    numStops (e :: evs) = numStops evs + 1 := by
  simp [numStops, List.filter_cons, h]

theorem numStops_stops (l : List Nat) : numStops (l.map stopEvent) = l.length := by
  induction l with
  | nil => rfl
  | cons i is ih =>
      rw [List.map_cons, numStops_cons_stop (stopEvent i) (is.map stopEvent) rfl, ih,
        List.length_cons]

theorem startIdxVals_cons_other (e : SEvent) (evs : List SEvent)
    (h : isStartEvent e = false) :
    startIdxVals (e :: evs) = startIdxVals evs := by
  simp [startIdxVals, List.filter_cons, h]

theorem startIdxVals_stops (l : List Nat) : startIdxVals (l.map stopEvent) = [] := by
  induction l with
  | nil => rfl
  | cons i is ih =>
      rw [List.map_cons, startIdxVals_cons_other (stopEvent i) (is.map stopEvent) rfl, ih]

theorem numStops_trailer (x y : JVal) :
    numStops [("message_delta", x), ("message_stop", y)] = 0 := rfl

theorem startIdxVals_trailer (x y : JVal) :
    startIdxVals [("message_delta", x), ("message_stop", y)] = [] := rfl

theorem finishWriter_spec (s : WState) (hP : s.startedBlocks = List.range s.nextIndex) :
    numStops (finishWriter s) = (finalizePendingTools s).1.nextIndex ∧
    startIdxVals (finishWriter s) =
      natIdxRange s.nextIndex (finalizePendingTools s).1.nextIndex ∧
    s.nextIndex ≤ (finalizePendingTools s).1.nextIndex := by
  have h := finalizePendingTools_spec s
  rcases hfp : finalizePendingTools s with ⟨s1, evs1⟩
  rw [hfp] at h
  obtain ⟨hle, hPs, hvals, hz, _⟩ := h
  have hP1 : s1.startedBlocks = List.range s1.nextIndex := hPs hP
  refine ⟨?_, ?_, hle⟩
  · unfold finishWriter
    rw [hfp]
    dsimp only
    rw [numStops_append, numStops_append, hz, numStops_stops, numStops_trailer,
      hP1, List.length_range]
    omega
  · unfold finishWriter
    rw [hfp]
    dsimp only
    rw [startIdxVals_append, startIdxVals_append, hvals, startIdxVals_stops,
      startIdxVals_trailer]
    simp

theorem startMessageIf_spec (req : JVal) (s : WState) (mid mdl : JVal) :
    OpSpec s (if !s.started then startMessage req s mid mdl else (s, [])).1
      (if !s.started then startMessage req s mid mdl else (s, [])).2 := by
  split
  · exact startMessage_spec _ _ _ _
  · exact opSpecId s

theorem startMessageIf_started (req : JVal) (s : WState) (mid mdl : JVal) :
    (if !s.started then startMessage req s mid mdl else (s, [])).1.started = true := by
  cases hs : s.started
  · rw [if_pos (by simp [hs])]
    unfold startMessage
    rw [if_neg (by simp [hs])]
  · rw [if_neg (by simp [hs])]
    exact hs

theorem toolDeltaGuard_spec (tc : JVal) (s : WState) :
    OpSpec s (toolDeltaGuard tc s).1 (toolDeltaGuard tc s).2 := by
  unfold toolDeltaGuard
  cases tc
  case obj kvs => exact handleToolDelta_spec _ _
  all_goals exact opSpecId s

theorem toolDeltasAll_cons (s : WState) (tc : JVal) (rest : List JVal) :
    toolDeltasAll s (tc :: rest) =
      ((toolDeltasAll (toolDeltaGuard tc s).1 rest).1,
        (toolDeltaGuard tc s).2 ++ (toolDeltasAll (toolDeltaGuard tc s).1 rest).2) := by
  conv_lhs => rw [toolDeltasAll]

theorem toolDeltasAll_spec (s : WState) (tcs : List JVal) :
    OpSpec s (toolDeltasAll s tcs).1 (toolDeltasAll s tcs).2 := by
  induction tcs generalizing s with
  | nil => exact opSpecId s
  | cons tc rest ih =>
      rw [toolDeltasAll_cons]
      exact (toolDeltaGuard_spec tc s).comp (ih _)

theorem chatUsageUpdate_spec (e : JVal) (s : WState) :
    OpSpec s (chatUsageUpdate e s) [] := by
  unfold chatUsageUpdate
  cases pyGet e "usage" <;> exact OpSpec.same _ _ rfl rfl rfl

theorem chatUsageUpdate_started (e : JVal) (s : WState) :
    (chatUsageUpdate e s).started = s.started := by
  unfold chatUsageUpdate
  cases pyGet e "usage" <;> rfl

theorem chatFinishUpdate_spec (c : JVal) (s : WState) :
    OpSpec s (chatFinishUpdate c s) [] := by
  unfold chatFinishUpdate
  split <;> exact OpSpec.same _ _ rfl rfl rfl

theorem chatChoiceStep_spec (c : JVal) (s : WState) :
    OpSpec s (chatChoiceStep c s).1 (chatChoiceStep c s).2 := by
  cases c
  case obj kvs =>
    unfold chatChoiceStep
    dsimp only
    generalize pyOr (pyGet (JVal.obj kvs) "delta") (JVal.obj []) = delta
    have h1 := startTextBlock_spec s
    have hx : OpSpec s
        (if hasKey delta "content" then handleTextDelta (pyGet delta "content") s
          else (s, [])).1
        (if hasKey delta "content" then handleTextDelta (pyGet delta "content") s
          else (s, [])).2 := by
      split
      · exact handleTextDelta_spec _ _
      · exact opSpecId s
    rcases hp1 : (if hasKey delta "content" then handleTextDelta (pyGet delta "content") s
        else (s, [])) with ⟨s3, evs2⟩
    rw [hp1] at hx
    dsimp only
    have h2 := toolDeltasAll_spec s3 (match pyGet delta "tool_calls" with
      | JVal.arr xs => xs
      | _ => [])
    rcases hp2 : toolDeltasAll s3 (match pyGet delta "tool_calls" with
      | JVal.arr xs => xs
      | _ => []) with ⟨s4, evs3⟩
    rw [hp2] at h2
    dsimp only
    exact hx.comp (h2.compNil (chatFinishUpdate_spec (JVal.obj kvs) s4))
  all_goals exact opSpecId s

theorem chatStep_spec (req : JVal) (s : WState) (e : JVal) :
    OpSpec s (chatStep req s e).1 (chatStep req s e).2 ∧
    ((chatStep req s e).1.started = true ∨ chatStep req s e = (s, [])) := by
  cases e
  case obj kvs =>
    unfold chatStep
    dsimp only
    have h1 := startMessageIf_spec req s (pyGet (JVal.obj kvs) "id")
      (pyGet (JVal.obj kvs) "model")
    have hst1 := startMessageIf_started req s (pyGet (JVal.obj kvs) "id")
      (pyGet (JVal.obj kvs) "model")
    rcases hp : (if !s.started then startMessage req s (pyGet (JVal.obj kvs) "id")
        (pyGet (JVal.obj kvs) "model") else (s, [])) with ⟨s1, evs1⟩
    rw [hp] at h1 hst1
    dsimp only at h1 hst1 ⊢
    have h2 := chatUsageUpdate_spec (JVal.obj kvs) s1
    have hst2 := chatUsageUpdate_started (JVal.obj kvs) s1
    cases hch : pyOr (pyGet (JVal.obj kvs) "choices") (JVal.arr []) with
    | null => exact ⟨h1.compNil h2, Or.inl (hst2.trans hst1)⟩
    | bool b => exact ⟨h1.compNil h2, Or.inl (hst2.trans hst1)⟩
    | num n => exact ⟨h1.compNil h2, Or.inl (hst2.trans hst1)⟩
    | fnum m p => exact ⟨h1.compNil h2, Or.inl (hst2.trans hst1)⟩
    | str t => exact ⟨h1.compNil h2, Or.inl (hst2.trans hst1)⟩
    | obj o => exact ⟨h1.compNil h2, Or.inl (hst2.trans hst1)⟩
    | arr xs =>
        cases xs with
        | nil => exact ⟨h1.compNil h2, Or.inl (hst2.trans hst1)⟩
        | cons c cs =>
            dsimp only
            have h3 := chatChoiceStep_spec c (chatUsageUpdate (JVal.obj kvs) s1)
            rcases hp3 : chatChoiceStep c (chatUsageUpdate (JVal.obj kvs) s1) with ⟨s5, evs23⟩
            rw [hp3] at h3
            dsimp only at h3 ⊢
            exact ⟨(h1.compNil h2).comp h3, Or.inl (h3.2.2.2.2 (hst2.trans hst1))⟩
  all_goals exact ⟨opSpecId s, Or.inr rfl⟩

theorem runChatEvents_cons (req : JVal) (s : WState) (e : JVal) (rest : List JVal) :
    runChatEvents req s (e :: rest) =
      ((runChatEvents req (chatStep req s e).1 rest).1,
        (chatStep req s e).2 ++ (runChatEvents req (chatStep req s e).1 rest).2) := by
  conv_lhs => rw [runChatEvents]

theorem runChatEvents_spec (req : JVal) (events : List JVal) :
    ∀ s : WState, OpSpec s (runChatEvents req s events).1 (runChatEvents req s events).2 := by
  induction events with
  | nil => intro s; exact opSpecId s
  | cons e rest ih =>
      intro s
      rw [runChatEvents_cons]
      exact (chatStep_spec req s e).1.comp (ih _)

theorem runChatEvents_quiet (req : JVal) (events : List JVal) :
    ∀ s : WState, (runChatEvents req s events).1.started = true ∨
      (runChatEvents req s events).2 = [] := by
  induction events with
  | nil => intro s; right; rfl
  | cons e rest ih =>
      intro s
      rw [runChatEvents_cons]
      rcases (chatStep_spec req s e).2 with hT | hId
      · left
        exact (runChatEvents_spec req rest (chatStep req s e).1).2.2.2.2 hT
      · rw [hId]
        dsimp only
        rcases ih s with hT2 | hE2
        · left
          exact hT2
        · right
          rw [hE2]
          rfl

/-- A writer that has not started has no tool block started and no tool
name recorded: what holds of every state the Responses handler can reach
before the first `_start_message` (only bare argument fragments can have
been buffered by `response.function_call_arguments.done`). -/
def NoTools (s : WState) : Prop :=
  ∀ kv ∈ s.toolStates, kv.2.started = false ∧ kv.2.tsName = none

theorem tsGet_prop (P : ToolState → Prop) (k : JVal) :
    ∀ l : List (JVal × ToolState), (∀ kv ∈ l, P kv.2) →
      ∀ v, tsGet l k = some v → P v := by
  intro l
  induction l with
  | nil =>
      intro _ v hv
      rw [tsGet] at hv
      exact Option.noConfusion hv
  | cons kv rest ih =>
      rcases kv with ⟨k1, v1⟩
      intro h v hv
      rw [tsGet] at hv
      split at hv
      · cases hv
        exact h (k1, v1) (List.mem_cons_self _ _)
      · exact ih (fun kv2 hkv => h kv2 (List.mem_cons_of_mem _ hkv)) v hv

theorem tsSet_mem (k : JVal) (v : ToolState) :
    ∀ l : List (JVal × ToolState), ∀ kv ∈ tsSet l k v, kv = (k, v) ∨ kv ∈ l := by
  intro l
  induction l with
  | nil =>
      intro kv hkv
      rw [tsSet] at hkv
      exact Or.inl (List.mem_singleton.mp hkv)
  | cons kv1 rest ih =>
      rcases kv1 with ⟨k1, v1⟩
      intro kv hkv
      rw [tsSet] at hkv
      split at hkv
      · rcases List.mem_cons.mp hkv with h | h
        · exact Or.inl h
        · exact Or.inr (List.mem_cons_of_mem _ h)
      · rcases List.mem_cons.mp hkv with h | h
        · rw [h]
          exact Or.inr (List.mem_cons_self _ _)
        · rcases ih kv h with h2 | h2
          · exact Or.inl h2
          · exact Or.inr (List.mem_cons_of_mem _ h2)

theorem toolDeltaState_started (tc : JVal) (st0 : ToolState)
    (hid : pyTruthy (pyGet tc "id") = false)
    (hname : pyTruthy (pyGet (pyOr (pyGet tc "function") (JVal.obj [])) "name") = false) :
    (toolDeltaState tc st0).started = st0.started ∧
    (toolDeltaState tc st0).tsName = st0.tsName := by
  unfold toolDeltaState
  dsimp only
  constructor <;> split <;> simp [hid, hname]

theorem handleToolDelta_quiet (tc : JVal) (s : WState) (hq : NoTools s)
    (hid : pyTruthy (pyGet tc "id") = false)
    (hname : pyTruthy (pyGet (pyOr (pyGet tc "function") (JVal.obj [])) "name") = false) :
    (handleToolDelta tc s).2 = [] ∧ NoTools (handleToolDelta tc s).1 ∧
    (handleToolDelta tc s).1.started = s.started := by
  unfold handleToolDelta
  dsimp only
  generalize pyGetD tc "index" (JVal.num 0) = key
  have hst0 : ((tsGet s.toolStates key).getD ⟨none, none, none, false, []⟩).started = false ∧
      ((tsGet s.toolStates key).getD ⟨none, none, none, false, []⟩).tsName = none := by
    cases h0 : tsGet s.toolStates key with
    | none => exact ⟨rfl, rfl⟩
    | some st =>
        exact tsGet_prop (fun v => v.started = false ∧ v.tsName = none) key
          s.toolStates hq st h0
  obtain ⟨hts, htn⟩ := toolDeltaState_started tc
    ((tsGet s.toolStates key).getD ⟨none, none, none, false, []⟩) hid hname
  rw [hst0.1] at hts
  rw [hst0.2] at htn
  rw [if_neg (by simp [hts]), if_neg (by simp [truthyOpt, htn])]
  refine ⟨rfl, ?_, rfl⟩
  intro kv hkv
  rcases tsSet_mem key _ s.toolStates kv hkv with h | h
  · rw [h]
    exact ⟨hts, htn⟩
  · exact hq kv h

theorem respUsageUpdate_spec (resp : JVal) (s : WState) :
    OpSpec s (respUsageUpdate resp s) [] := by
  unfold respUsageUpdate
  cases pyGet resp "usage" <;> exact OpSpec.same _ _ rfl rfl rfl

theorem respUsageUpdate_started (resp : JVal) (s : WState) :
    (respUsageUpdate resp s).started = s.started := by
  unfold respUsageUpdate
  cases pyGet resp "usage" <;> rfl

theorem respIncompleteUpdate_spec (resp : JVal) (s : WState) :
    OpSpec s (respIncompleteUpdate resp s) [] := by
  unfold respIncompleteUpdate
  dsimp only
  split <;> exact OpSpec.same _ _ rfl rfl rfl

theorem respIncompleteUpdate_started (resp : JVal) (s : WState) :
    (respIncompleteUpdate resp s).started = s.started := by
  unfold respIncompleteUpdate
  dsimp only
  split <;> rfl

theorem respStep_spec (req : JVal) (s : WState) (ta : List (Int × String)) (e : JVal) :
    OpSpec s (respStep req s ta e).1 (respStep req s ta e).2.2.1 ∧
    (s.started = false → NoTools s →
      ((respStep req s ta e).1.started = true ∨
        ((respStep req s ta e).2.2.1 = [] ∧ NoTools (respStep req s ta e).1 ∧
          (respStep req s ta e).1.started = false))) := by
  cases e
  case obj kvs =>
    unfold respStep
    dsimp only
    generalize pyGet (JVal.obj kvs) "type" = etype
    by_cases hc1 : etype = JVal.str "response.created" ∨
        etype = JVal.str "response.in_progress" ∨ etype = JVal.str "response.queued"
    · rw [if_pos hc1]
      generalize pyOr (pyGet (JVal.obj kvs) "response") (JVal.obj []) = resp
      have h1 := startMessageIf_spec req s (pyGet resp "id") (pyOr (pyGet resp "model") req)
      have hst1 := startMessageIf_started req s (pyGet resp "id")
        (pyOr (pyGet resp "model") req)
      rcases hp : (if !s.started then startMessage req s (pyGet resp "id")
          (pyOr (pyGet resp "model") req) else (s, [])) with ⟨s1, evs⟩
      rw [hp] at h1 hst1
      dsimp only at h1 hst1 ⊢
      exact ⟨h1, fun _ _ => Or.inl hst1⟩
    · rw [if_neg hc1]
      by_cases hc2 : etype = JVal.str "response.output_text.delta"
      · rw [if_pos hc2]
        have h1 := startMessageIf_spec req s (pyGet (JVal.obj kvs) "response_id") req
        have hst1 := startMessageIf_started req s (pyGet (JVal.obj kvs) "response_id") req
        rcases hp : (if !s.started then startMessage req s
            (pyGet (JVal.obj kvs) "response_id") req else (s, [])) with ⟨s1, evs1⟩
        rw [hp] at h1 hst1
        dsimp only at h1 hst1 ⊢
        have h2 := handleTextDelta_spec (pyGet (JVal.obj kvs) "delta") s1
        rcases hp2 : handleTextDelta (pyGet (JVal.obj kvs) "delta") s1 with ⟨s2, evs2⟩
        rw [hp2] at h2
        dsimp only at h2 ⊢
        exact ⟨h1.comp h2, fun _ _ => Or.inl (h2.2.2.2.2 hst1)⟩
      · rw [if_neg hc2]
        by_cases hc3 : etype = JVal.str "response.output_text.done"
        · rw [if_pos hc3]
          have h1 := startMessageIf_spec req s (pyGet (JVal.obj kvs) "response_id") req
          have hst1 := startMessageIf_started req s (pyGet (JVal.obj kvs) "response_id") req
          rcases hp : (if !s.started then startMessage req s
              (pyGet (JVal.obj kvs) "response_id") req else (s, [])) with ⟨s1, evs1⟩
          rw [hp] at h1 hst1
          dsimp only at h1 hst1 ⊢
          have h2 := handleTextDelta_spec (pyGet (JVal.obj kvs) "text") s1
          rcases hp2 : handleTextDelta (pyGet (JVal.obj kvs) "text") s1 with ⟨s2, evs2⟩
          rw [hp2] at h2
          dsimp only at h2 ⊢
          exact ⟨h1.comp h2, fun _ _ => Or.inl (h2.2.2.2.2 hst1)⟩
        · rw [if_neg hc3]
          by_cases hc4 : etype = JVal.str "response.output_item.added"
          · rw [if_pos hc4]
            cases hitem : pyOr (pyGet (JVal.obj kvs) "item") (JVal.obj []) with
            | null => exact ⟨opSpecId s, fun hs hq => Or.inr ⟨rfl, hq, hs⟩⟩
            | bool b => exact ⟨opSpecId s, fun hs hq => Or.inr ⟨rfl, hq, hs⟩⟩
            | num n => exact ⟨opSpecId s, fun hs hq => Or.inr ⟨rfl, hq, hs⟩⟩
            | fnum m p => exact ⟨opSpecId s, fun hs hq => Or.inr ⟨rfl, hq, hs⟩⟩
            | str t => exact ⟨opSpecId s, fun hs hq => Or.inr ⟨rfl, hq, hs⟩⟩
            | arr xs => exact ⟨opSpecId s, fun hs hq => Or.inr ⟨rfl, hq, hs⟩⟩
            | obj ikvs =>
              dsimp only
              by_cases hty : pyGet (JVal.obj ikvs) "type" ≠ JVal.str "function_call"
              · rw [if_pos hty]
                exact ⟨opSpecId s, fun hs hq => Or.inr ⟨rfl, hq, hs⟩⟩
              · rw [if_neg hty]
                generalize pyToInt (pyOr (pyGetD (JVal.obj kvs) "output_index" (JVal.num 0))
                  (JVal.num 0)) = idx
                generalize pyOr (pyGet (JVal.obj ikvs) "call_id")
                  (pyOr (pyGet (JVal.obj ikvs) "id") (JVal.str ("tool_" ++ uuidHex))) = callId
                generalize pyOr (pyGet (JVal.obj ikvs) "name") (JVal.str "tool") = nm
                generalize pyOr (pyGet (JVal.obj ikvs) "arguments") (JVal.str "") = args
                have h1 := startMessageIf_spec req s (pyGet (JVal.obj kvs) "response_id") req
                have hst1 := startMessageIf_started req s
                  (pyGet (JVal.obj kvs) "response_id") req
                rcases hp : (if !s.started then startMessage req s
                    (pyGet (JVal.obj kvs) "response_id") req else (s, [])) with ⟨s1, evs1⟩
                rw [hp] at h1 hst1
                dsimp only at h1 hst1 ⊢
                have h2 := handleToolDelta_spec (JVal.obj [("index", JVal.num idx),
                  ("id", callId),
                  ("function", JVal.obj [("name", nm), ("arguments", args)])]) s1
                rcases hp2 : handleToolDelta (JVal.obj [("index", JVal.num idx),
                    ("id", callId),
                    ("function", JVal.obj [("name", nm), ("arguments", args)])]) s1 with
                  ⟨s2, evs2⟩
                rw [hp2] at h2
                dsimp only at h2 ⊢
                exact ⟨h1.comp h2, fun _ _ => Or.inl (h2.2.2.2.2 hst1)⟩
          · rw [if_neg hc4]
            by_cases hc5 : etype = JVal.str "response.function_call_arguments.delta"
            · rw [if_pos hc5]
              generalize pyToInt (pyOr (pyGetD (JVal.obj kvs) "output_index" (JVal.num 0))
                (JVal.num 0)) = idx
              generalize pyOr (pyGet (JVal.obj kvs) "delta") (JVal.str "") = dl
              have h1 := startMessageIf_spec req s (pyGet (JVal.obj kvs) "response_id") req
              have hst1 := startMessageIf_started req s
                (pyGet (JVal.obj kvs) "response_id") req
              rcases hp : (if !s.started then startMessage req s
                  (pyGet (JVal.obj kvs) "response_id") req else (s, [])) with ⟨s1, evs1⟩
              rw [hp] at h1 hst1
              dsimp only at h1 hst1 ⊢
              have h2 := handleToolDelta_spec (JVal.obj [("index", JVal.num idx),
                ("function", JVal.obj [("arguments", dl)])]) s1
              rcases hp2 : handleToolDelta (JVal.obj [("index", JVal.num idx),
                  ("function", JVal.obj [("arguments", dl)])]) s1 with ⟨s2, evs2⟩
              rw [hp2] at h2
              dsimp only at h2 ⊢
              exact ⟨h1.comp h2, fun _ _ => Or.inl (h2.2.2.2.2 hst1)⟩
            · rw [if_neg hc5]
              by_cases hc6 : etype = JVal.str "response.function_call_arguments.done"
              · rw [if_pos hc6]
                generalize pyToInt (pyOr (pyGetD (JVal.obj kvs) "output_index" (JVal.num 0))
                  (JVal.num 0)) = idx
                generalize asStrD (pyOr (pyGet (JVal.obj kvs) "arguments") (JVal.str "")) ""
                  = full
                generalize taGet ta idx = prev
                by_cases hg : full ≠ "" ∧ strStarts full prev
                · rw [if_pos hg]
                  generalize hrem : (⟨full.data.drop prev.data.length⟩ : String) = remaining
                  constructor
                  · have h1 : OpSpec s
                        (if remaining ≠ "" then
                          handleToolDelta (JVal.obj [("index", JVal.num idx),
                            ("function", JVal.obj [("arguments", JVal.str remaining)])]) s
                        else (s, [])).1
                        (if remaining ≠ "" then
                          handleToolDelta (JVal.obj [("index", JVal.num idx),
                            ("function", JVal.obj [("arguments", JVal.str remaining)])]) s
                        else (s, [])).2 := by
                      split
                      · exact handleToolDelta_spec _ _
                      · exact opSpecId s
                    rcases hp : (if remaining ≠ "" then
                        handleToolDelta (JVal.obj [("index", JVal.num idx),
                          ("function", JVal.obj [("arguments", JVal.str remaining)])]) s
                      else (s, [])) with ⟨s1, evs⟩
                    rw [hp] at h1
                    dsimp only
                    exact h1
                  · intro hs hq
                    right
                    have hqd := handleToolDelta_quiet (JVal.obj [("index", JVal.num idx),
                      ("function", JVal.obj [("arguments", JVal.str remaining)])]) s hq rfl rfl
                    by_cases hr : remaining ≠ ""
                    · rw [if_pos hr]
                      rcases hp : handleToolDelta (JVal.obj [("index", JVal.num idx),
                          ("function", JVal.obj [("arguments", JVal.str remaining)])]) s with
                        ⟨s1, evs⟩
                      rw [hp] at hqd
                      dsimp only at hqd ⊢
                      exact ⟨hqd.1, hqd.2.1, hqd.2.2.trans hs⟩
                    · rw [if_neg hr]
                      dsimp only
                      exact ⟨rfl, hq, hs⟩
                · rw [if_neg hg]
                  exact ⟨opSpecId s, fun hs hq => Or.inr ⟨rfl, hq, hs⟩⟩
              · rw [if_neg hc6]
                by_cases hc7 : etype = JVal.str "response.completed" ∨
                    etype = JVal.str "response.incomplete" ∨ etype = JVal.str "response.failed"
                · rw [if_pos hc7]
                  generalize pyOr (pyGet (JVal.obj kvs) "response") (JVal.obj []) = resp
                  have h1 := startMessageIf_spec req s
                    (pyOr (pyGet resp "id") (pyGet (JVal.obj kvs) "response_id"))
                    (pyOr (pyGet resp "model") req)
                  have hst1 := startMessageIf_started req s
                    (pyOr (pyGet resp "id") (pyGet (JVal.obj kvs) "response_id"))
                    (pyOr (pyGet resp "model") req)
                  rcases hp : (if !s.started then startMessage req s
                      (pyOr (pyGet resp "id") (pyGet (JVal.obj kvs) "response_id"))
                      (pyOr (pyGet resp "model") req) else (s, [])) with ⟨s1, evs⟩
                  rw [hp] at h1 hst1
                  dsimp only at h1 hst1 ⊢
                  constructor
                  · exact h1.compNil ((respUsageUpdate_spec resp s1).compNil
                      (respIncompleteUpdate_spec resp (respUsageUpdate resp s1)))
                  · intro hs hq
                    left
                    rw [respIncompleteUpdate_started, respUsageUpdate_started]
                    exact hst1
                · rw [if_neg hc7]
                  exact ⟨opSpecId s, fun hs hq => Or.inr ⟨rfl, hq, hs⟩⟩
  all_goals exact ⟨opSpecId s, fun hs hq => Or.inr ⟨rfl, hq, hs⟩⟩

theorem runRespEvents_cons (req : JVal) (s : WState) (ta : List (Int × String))
    (e : JVal) (rest : List JVal) :
    runRespEvents req s ta (e :: rest) =
      (if (respStep req s ta e).2.2.2 = true then
        ((respStep req s ta e).1, (respStep req s ta e).2.2.1)
      else
        ((runRespEvents req (respStep req s ta e).1 (respStep req s ta e).2.1 rest).1,
          (respStep req s ta e).2.2.1 ++
            (runRespEvents req (respStep req s ta e).1 (respStep req s ta e).2.1 rest).2)) := by
  conv_lhs => rw [runRespEvents]

theorem runRespEvents_spec (req : JVal) (events : List JVal) :
    ∀ (s : WState) (ta : List (Int × String)),
      OpSpec s (runRespEvents req s ta events).1 (runRespEvents req s ta events).2 := by
  induction events with
  | nil => intro s ta; exact opSpecId s
  | cons e rest ih =>
      intro s ta
      rw [runRespEvents_cons]
      by_cases hb : (respStep req s ta e).2.2.2 = true
      · rw [if_pos hb]
        exact (respStep_spec req s ta e).1
      · rw [if_neg hb]
        exact (respStep_spec req s ta e).1.comp (ih _ _)

theorem runRespEvents_quiet (req : JVal) (events : List JVal) :
    ∀ (s : WState) (ta : List (Int × String)), s.started = false → NoTools s →
      ((runRespEvents req s ta events).1.started = true ∨
        (runRespEvents req s ta events).2 = []) := by
  induction events with
  | nil => intro s ta _ _; right; rfl
  | cons e rest ih =>
      intro s ta hs hq
      rw [runRespEvents_cons]
      rcases (respStep_spec req s ta e).2 hs hq with hT | ⟨hevs, hnt, hsf⟩
      · by_cases hb : (respStep req s ta e).2.2.2 = true
        · rw [if_pos hb]
          left
          exact hT
        · rw [if_neg hb]
          left
          exact (runRespEvents_spec req rest (respStep req s ta e).1
            (respStep req s ta e).2.1).2.2.2.2 hT
      · by_cases hb : (respStep req s ta e).2.2.2 = true
        · rw [if_pos hb]
          right
          exact hevs
        · rw [if_neg hb]
          rcases ih (respStep req s ta e).1 (respStep req s ta e).2.1 hsf hnt with hT2 | hE2
          · left
            exact hT2
          · right
            rw [hevs, hE2]
            rfl

theorem stream_brackets (s : WState) (evs : List SEvent)
    (h : OpSpec initWState s evs)
    (hq : s.started = true ∨ evs = []) :
    numStops (evs ++ (if s.started then finishWriter s else [])) =
      numStarts (evs ++ (if s.started then finishWriter s else [])) ∧
    startIdxVals (evs ++ (if s.started then finishWriter s else [])) =
      natIdxList (List.range
        (numStarts (evs ++ (if s.started then finishWriter s else [])))) := by
  obtain ⟨hle, hPs, hvals, hz, _⟩ := h
  by_cases hs : s.started = true
  · rw [if_pos hs]
    have hP : s.startedBlocks = List.range s.nextIndex :=
      hPs (show ([] : List Nat) = List.range 0 by simp)
    obtain ⟨hfz, hfv, hfle⟩ := finishWriter_spec s hP
    have h0 : initWState.nextIndex = 0 := rfl
    have hlen : numStarts (evs ++ finishWriter s) =
        (finalizePendingTools s).1.nextIndex := by
      rw [numStarts_eq_length, startIdxVals_append, hvals, hfv, List.length_append,
        natIdxRange_length, natIdxRange_length]
      omega
    constructor
    · rw [numStops_append, hz, hfz, hlen]
      omega
    · rw [startIdxVals_append, hvals, hfv, hlen]
      unfold natIdxRange
      rw [← natIdxList_append, range'_glue _ _ _ hle hfle, List.range_eq_range', h0,
        Nat.sub_zero]
  · rw [if_neg hs]
    rcases hq with hT | hE
    · exact absurd hT hs
    · subst hE
      exact ⟨rfl, rfl⟩

theorem runChatStream_brackets (req : JVal) (events : List JVal) :
    numStops (runChatStream req events) = numStarts (runChatStream req events) ∧
    startIdxVals (runChatStream req events) =
      natIdxList (List.range (numStarts (runChatStream req events))) := by
  have h := runChatEvents_spec req events initWState
  have hq := runChatEvents_quiet req events initWState
  unfold runChatStream
  rcases he : runChatEvents req initWState events with ⟨s, evs⟩
  rw [he] at h hq
  dsimp only
  exact stream_brackets s evs h hq

theorem runRespStream_brackets (req : JVal) (events : List JVal) :
    numStops (runRespStream req events) = numStarts (runRespStream req events) ∧
    startIdxVals (runRespStream req events) =
      natIdxList (List.range (numStarts (runRespStream req events))) := by
  have h := runRespEvents_spec req events initWState []
  have hq := runRespEvents_quiet req events initWState [] rfl
    (by intro kv hkv; exact absurd hkv (List.not_mem_nil kv))
  unfold runRespStream
  rcases he : runRespEvents req initWState [] events with ⟨s, evs⟩
  rw [he] at h hq
  dsimp only
  exact stream_brackets s evs h hq

/-- C4: for every completed streaming response — on either the Chat
Completions path (`_handle_stream`) or the Responses path
(`_handle_responses_stream`) — the translated stream carries exactly as
many `content_block_stop` frames as `content_block_start` frames, and
the `index` fields of the `content_block_start` frames are exactly
`0, 1, …, k-1` in emission order. -/
theorem claim_C4 :
    (∀ (req : JVal) (events : List JVal),
      numStops (runChatStream req events) = numStarts (runChatStream req events) ∧
      startIdxVals (runChatStream req events) =
        natIdxList (List.range (numStarts (runChatStream req events)))) ∧
    (∀ (req : JVal) (events : List JVal),
      numStops (runRespStream req events) = numStarts (runRespStream req events) ∧
      startIdxVals (runRespStream req events) =
        natIdxList (List.range (numStarts (runRespStream req events)))) :=
  ⟨runChatStream_brackets, runRespStream_brackets⟩
